import Mathlib

/-!
Verification of the EMA-API-Handling repository core: a shallow embedding of
the schedule builder/merger (`schedule_json_builder.py`,
`merge_and_push_schedule.py`), the flattening engine (`get_data.py`,
`get_interactions.py`), and the retrying request executors
(`set_schedule_from_json.py`, `get_data.py`, `get_schedule.py`).

Python values exchanged with the remote service (JSON plus a few pandas
scalars) are modelled by the inductive `Val`; fallible Python code is
modelled in `Except String` with the exception text as the error value.
External library calls (`ast.literal_eval`, `json.loads`, timezone
conversion, JWT minting, HTTP transport) are threaded as function
parameters of the embedding.
-/

namespace EMA

/-- Python/JSON values as they appear in the repository's data paths:
`None`, float NaN, bools, ints, floats (held here with an integral
value, which is all the claims need besides NaN-ness), strings,
pandas timestamps, lists and dicts (assoc lists). -/
inductive Val where
  | nullV
  | nanV
  | boolV (b : Bool)
  | intV (n : Int)
  | floatV (n : Int)
  | strV (s : String)
  | tsV (y mo dy hh mi ss : Nat)
  | listV (elems : List Val)
  | objV (fields : List (String × Val))

/-- A flattened row / dict under construction: column name to value. -/
abbrev Rec := List (String × Val)

/-- `d.get(k)`-style lookup in a dict modelled as an assoc list
(first match; Python dict keys are unique). -/
def dictLookup : List (String × Val) → String → Option Val
  | [], _ => none
  | (k, v) :: rest, key => if k = key then some v else dictLookup rest key

/-- `d[k] = v`: overwrite in place if the key exists (Python dicts keep the
original insertion position), else append. -/
def dictSet : List (String × Val) → String → Val → List (String × Val)
  | [], key, v => [(key, v)]
  | (k, w) :: rest, key, v =>
      if k = key then (k, v) :: rest else (k, w) :: dictSet rest key v

/-- Python truthiness (`bool(v)`); note `float("nan")` is truthy. -/
def truthy : Val → Bool
  | .nullV => false
  | .nanV => true
  | .boolV b => b
  | .intV n => n != 0
  | .floatV n => n != 0
  | .strV s => s != ""
  | .tsV .. => true
  | .listV l => !l.isEmpty
  | .objV f => !f.isEmpty

/-- Numeric view used by Python `==` (ints, bools and floats compare by
value across types). -/
def pyNum : Val → Option Int
  | .intV n => some n
  | .boolV b => some (if b then 1 else 0)
  | .floatV n => some n
  | _ => none

mutual
/-- Python `==`: NaN compares unequal to everything (itself included),
numbers compare by value across int/bool/float, strings by content,
lists elementwise.  (Dicts here compare pairwise in insertion order; the
repository never compares dicts.) -/
def pyEq : Val → Val → Bool
  | .nanV, _ => false
  | _, .nanV => false
  | .strV a, .strV b => a == b
  | .nullV, .nullV => true
  | .tsV a b c d e f, .tsV a' b' c' d' e' f' =>
      a == a' && b == b' && c == c' && d == d' && e == e' && f == f'
  | .listV a, .listV b => pyEqList a b
  | .objV a, .objV b => pyEqPairs a b
  | a, b =>
    match pyNum a, pyNum b with
    | some x, some y => x == y
    | _, _ => false

def pyEqList : List Val → List Val → Bool
  | [], [] => true
  | x :: xs, y :: ys => pyEq x y && pyEqList xs ys
  | _, _ => false

def pyEqPairs : List (String × Val) → List (String × Val) → Bool
  | [], [] => true
  | (k, x) :: xs, (k', y) :: ys => k == k' && pyEq x y && pyEqPairs xs ys
  | _, _ => false
end

example : pyEq (.boolV true) (.intV 1) = true := by rfl
example : pyEq (.nanV) (.nanV) = false := by rfl
example : pyEq (.listV [.intV 1]) (.listV [.floatV 1]) = true := by rfl

/-- Zero-pad a natural to two digits. -/
def pad2 (n : Nat) : String := if n < 10 then "0" ++ toString n else toString n

/-- Zero-pad a natural to four digits (the `%Y` / `:04d` format). -/
def pad4 (n : Nat) : String :=
  if n < 10 then "000" ++ toString n
  else if n < 100 then "00" ++ toString n
  else if n < 1000 then "0" ++ toString n
  else toString n

/-- `strftime("%Y-%m-%d %H:%M:%S")` on a timestamp. -/
def tsFormat (y mo dy hh mi ss : Nat) : String :=
  pad4 y ++ "-" ++ pad2 mo ++ "-" ++ pad2 dy ++ " " ++
    pad2 hh ++ ":" ++ pad2 mi ++ ":" ++ pad2 ss

/-- One character of a JSON string literal. -/
def jsonEscapeChar (c : Char) : String :=
  if c = '\\' then "\\\\" else if c = '"' then "\\\"" else String.singleton c

/-- Body of a JSON string literal. -/
def jsonEscape (s : String) : String := String.join (s.data.map jsonEscapeChar)

mutual
/-- `json.dumps(v, ensure_ascii=False)` with the default separators.
(On a pandas timestamp `json.dumps` would raise; the flattening inputs are
JSON-derived and never contain one, so it is rendered as its string form.) -/
def jsonDumps : Val → String
  | .nullV => "null"
  | .nanV => "NaN"
  | .boolV b => if b then "true" else "false"
  | .intV n => toString n
  | .floatV n => toString n ++ ".0"
  | .strV s => "\"" ++ jsonEscape s ++ "\""
  | .tsV y mo dy hh mi ss => "\"" ++ tsFormat y mo dy hh mi ss ++ "\""
  | .listV l => "[" ++ jsonDumpsList l ++ "]"
  | .objV f => "\x7b" ++ jsonDumpsPairs f ++ "\x7d"

def jsonDumpsList : List Val → String
  | [] => ""
  | [x] => jsonDumps x
  | x :: rest => jsonDumps x ++ ", " ++ jsonDumpsList rest

def jsonDumpsPairs : List (String × Val) → String
  | [] => ""
  | [(k, v)] => "\"" ++ jsonEscape k ++ "\": " ++ jsonDumps v
  | (k, v) :: rest =>
      "\"" ++ jsonEscape k ++ "\": " ++ jsonDumps v ++ ", " ++ jsonDumpsPairs rest
end

/-- A Python single-quote character, for `repr` output. -/
def sq1 : String := String.singleton (Char.ofNat 39)

mutual
/-- Python `repr` (to the extent the repository can observe it). -/
def pyRepr : Val → String
  | .nullV => "None"
  | .nanV => "nan"
  | .boolV b => if b then "True" else "False"
  | .intV n => toString n
  | .floatV n => toString n ++ ".0"
  | .strV s => sq1 ++ s ++ sq1
  | .tsV y mo dy hh mi ss => "Timestamp(" ++ sq1 ++ tsFormat y mo dy hh mi ss ++ sq1 ++ ")"
  | .listV l => "[" ++ pyReprList l ++ "]"
  | .objV f => "\x7b" ++ pyReprPairs f ++ "\x7d"

def pyReprList : List Val → String
  | [] => ""
  | [x] => pyRepr x
  | x :: rest => pyRepr x ++ ", " ++ pyReprList rest

def pyReprPairs : List (String × Val) → String
  | [] => ""
  | [(k, v)] => sq1 ++ k ++ sq1 ++ ": " ++ pyRepr v
  | (k, v) :: rest => sq1 ++ k ++ sq1 ++ ": " ++ pyRepr v ++ ", " ++ pyReprPairs rest
end

/-- Python `str(v)` (`f"{v}"`): identity on strings, `repr` otherwise;
a timestamp prints as its date-time text. -/
def pyStr : Val → String
  | .strV s => s
  | .tsV y mo dy hh mi ss => tsFormat y mo dy hh mi ss
  | v => pyRepr v

/-- `_to_scalar` (get_data.py / get_interactions.py / get_schedule.py):
JSON-serialize lists and dicts, leave scalars unchanged. -/
def toScalar : Val → Val
  | .listV l => .strV (jsonDumps (.listV l))
  | .objV f => .strV (jsonDumps (.objV f))
  | v => v

/-- `pd.isna(v)` followed by Python truthiness, as the repository uses it:
`None` and NaN are missing; on a list pandas returns an elementwise bool
array, whose truthiness is `False` when empty, the single element's
missingness when of length one, and a `ValueError` otherwise. -/
def pdIsna : Val → Except String Bool
  | .nullV => pure true
  | .nanV => pure true
  | .listV [] => pure false
  | .listV [v] => pdIsna v
  | .listV _ => .error "ValueError: truth value of an array with more than one element is ambiguous"
  | _ => pure false

/-- `pd.notna(v)` under Python truthiness (the empty bool array is falsy
for `notna` as well, so this is not simply the negation of `pdIsna`). -/
def pdNotna : Val → Except String Bool
  | .nullV => pure false
  | .nanV => pure false
  | .listV [] => pure false
  | .listV [v] => pdNotna v
  | .listV _ => .error "ValueError: truth value of an array with more than one element is ambiguous"
  | _ => pure true

/-! ## Retrying request executors

The three retry loops of the repository, modelled as pure functions of
* `mint : Nat → Nat` — the JWT provider; `mint i` is the token produced by
  the i-th minting call of the function under study (tokens are opaque,
  so `Nat` suffices);
* `respond : Nat → Val` — the transport: the parsed JSON body the server
  returns to the n-th HTTP request of this call (1-based).

Each model returns the trace of tokens sent, one per HTTP attempt, in
order, together with the Python result (`.error` = raised exception). -/

/-- `body.get("status")` — `None` when absent, `AttributeError` when the
parsed body is not a dict. -/
def statusOf : Val → Except String Val
  | .objV fields => pure ((dictLookup fields "status").getD .nullV)
  | _ => .error "AttributeError"

/-- `_stamp_and_dump(body, "data", ...)` (get_data.py lines 73-93) minus the
file write: stamp `downloadedAt` (=`now`) onto each row of `body["data"]`
and return them; `body[key]` raises `KeyError` when absent.  Iterating a
non-list behaves as Python iteration does (an empty string or dict yields
nothing; otherwise the per-row item assignment raises `TypeError`). -/
def stampAndDump (now : String) (body : Val) : Except String Val :=
  match body with
  | .objV fields =>
      match dictLookup fields "data" with
      | none => .error "KeyError: data"
      | some (.listV rows) => do
          let rows' ← rows.mapM (fun r =>
            match r with
            | .objV rf => pure (Val.objV (dictSet rf "downloadedAt" (.strV now)))
            | _ => Except.error "TypeError: object does not support item assignment")
          pure (.listV rows')
      | some (.strV s) =>
          if s.isEmpty then pure (.strV s)
          else .error "TypeError: object does not support item assignment"
      | some (.objV []) => pure (.objV [])
      | some (.objV _) => .error "TypeError: object does not support item assignment"
      | some _ => .error "TypeError: object is not iterable"
  | _ => .error "TypeError: object is not subscriptable"

/-- The retry loop of `set_schedule` (set_schedule_from_json.py lines
85-98).  The `params` dict — the JWT included — was built once, before
the loop (lines 78-83), so every attempt posts the same `token`.
`rem` is the number of loop iterations left (`retries - attempt + 1`);
`attempt` is the 1-based attempt counter.  A body whose `status` is not
`-1` is returned immediately; on `-1` the last attempt raises, earlier
ones sleep and continue.  With `retries = 0` the loop body never runs and
the function returns `None`. -/
def setScheduleGo (token : Nat) (respond : Nat → Val) :
    Nat → Nat → List Nat × Except String Val
  | 0, _ => ([], .ok .nullV)
  | rem + 1, attempt =>
      let body := respond attempt
      match statusOf body with
      | .error e => ([token], .error e)
      | .ok st =>
          if !pyEq st (.intV (-1)) then ([token], .ok body)
          else if rem == 0 then
            ([token], .error "Server returned status -1 repeatedly; upload failed.")
          else
            let next := setScheduleGo token respond rem (attempt + 1)
            (token :: next.1, next.2)

/-- `set_schedule` (set_schedule_from_json.py lines 59-98): the JWT is
minted exactly once, while building `params`, before the retry loop. -/
def setScheduleModel (mint : Nat → Nat) (respond : Nat → Val) (retries : Nat) :
    List Nat × Except String Val :=
  let token := mint 0
  setScheduleGo token respond retries 1

/-- The retry loop of `get_data` (get_data.py lines 110-124).  A fresh JWT
is minted at the top of every iteration (line 111), so the n-th attempt
sends `mint (n-1)`.  `status == 1` succeeds via `_stamp_and_dump`;
`status == -1` retries until the budget is exhausted; any other status
reaches line 124, where `json.dumps(body, 2)` passes `2` to the
keyword-only parameter position and raises `TypeError` before the
`RuntimeError` message (which was meant to carry the body) is built. -/
def getDataGo (mint : Nat → Nat) (respond : Nat → Val) (now : String) :
    Nat → Nat → List Nat × Except String Val
  | 0, _ => ([], .ok .nullV)
  | rem + 1, attempt =>
      let token := mint (attempt - 1)
      let body := respond attempt
      match statusOf body with
      | .error e => ([token], .error e)
      | .ok st =>
          if pyEq st (.intV 1) then ([token], stampAndDump now body)
          else if pyEq st (.intV (-1)) then
            if rem == 0 then ([token], .error "API gave status -1 after max retries.")
            else
              let next := getDataGo mint respond now rem (attempt + 1)
              (token :: next.1, next.2)
          else ([token], .error "TypeError: dumps() takes 1 positional argument but 2 were given")

/-- `get_data` (get_data.py lines 95-124), directory handling elided. -/
def getDataModel (mint : Nat → Nat) (respond : Nat → Val) (now : String)
    (maxRetries : Nat) : List Nat × Except String Val :=
  getDataGo mint respond now maxRetries 1

/-- The retry loop of `_fetch_schedule` (get_schedule.py lines 77-95).
`params` — the JWT included — are rebuilt inside the loop, so the n-th
attempt sends `mint (n-1)`.  `status == 1` returns
`body.get("schedule", [])`; `status == -1` with attempts left retries;
everything else (a `-1` on the last attempt included) reaches the
`json.dumps(body, 2)` call, which raises `TypeError` as in `get_data`. -/
def fetchScheduleGo (mint : Nat → Nat) (respond : Nat → Val) :
    Nat → Nat → List Nat × Except String Val
  | 0, _ => ([], .ok .nullV)
  | rem + 1, attempt =>
      let token := mint (attempt - 1)
      let body := respond attempt
      match statusOf body with
      | .error e => ([token], .error e)
      | .ok st =>
          if pyEq st (.intV 1) then
            match body with
            | .objV fields => ([token], .ok ((dictLookup fields "schedule").getD (.listV [])))
            | _ => ([token], .error "AttributeError")
          else if pyEq st (.intV (-1)) && rem != 0 then
            let next := fetchScheduleGo mint respond rem (attempt + 1)
            (token :: next.1, next.2)
          else ([token], .error "TypeError: dumps() takes 1 positional argument but 2 were given")

/-- `_fetch_schedule` (get_schedule.py lines 77-95). -/
def fetchScheduleModel (mint : Nat → Nat) (respond : Nat → Val) (retries : Nat) :
    List Nat × Except String Val :=
  fetchScheduleGo mint respond retries 1

section ExecutorChecks
/-- Responder used in checks: `-1` on the first attempt, success after. -/
def respRetryOnce : Nat → Val
  | 1 => .objV [("status", .intV (-1))]
  | _ => .objV [("status", .intV 1), ("data", .listV [])]

example : (setScheduleModel (fun n => n) respRetryOnce 3).1 = [0, 0] := by rfl
example : (getDataModel (fun n => n) respRetryOnce "t" 3).1 = [0, 1] := by rfl
example :
    (setScheduleModel (fun n => n) (fun _ => .objV [("status", .intV 2)]) 3).2 =
      .ok (.objV [("status", .intV 2)]) := by rfl
example :
    (getDataModel (fun n => n) (fun _ => .objV [("status", .intV 2)]) "t" 3).2 =
      .error "TypeError: dumps() takes 1 positional argument but 2 were given" := by rfl
end ExecutorChecks

/-! ### Token-trace lemmas (claim C1) -/

/-- Every attempt of the `set_schedule` loop sends the same token. -/
theorem setScheduleGo_trace (token : Nat) (respond : Nat → Val) :
    ∀ rem attempt, (setScheduleGo token respond rem attempt).1 =
      List.replicate (setScheduleGo token respond rem attempt).1.length token := by
  intro rem
  induction rem with
  | zero => intro attempt; rfl
  | succ rem ih =>
      intro attempt
      simp only [setScheduleGo]
      cases statusOf (respond attempt) with
      | error e => rfl
      | ok st =>
          by_cases h1 : pyEq st (.intV (-1)) = false
          · simp [h1]
          · simp only [Bool.not_eq_false] at h1
            by_cases h2 : rem = 0
            · simp [h1, h2]
            · simp only [h1, Bool.not_true, Bool.false_eq_true, if_false,
                beq_iff_eq, h2, if_false, List.length_cons, List.replicate_succ,
                List.cons.injEq, true_and]
              exact ih (attempt + 1)

/-- The n-th attempt of the `get_data` loop sends the n-th freshly minted
token: starting at attempt `b + 1`, the trace is `mint` applied to the
consecutive mint-counter values from `b`. -/
theorem getDataGo_trace (mint : Nat → Nat) (respond : Nat → Val) (now : String) :
    ∀ rem b, (getDataGo mint respond now rem (b + 1)).1 =
      (List.range' b (getDataGo mint respond now rem (b + 1)).1.length).map mint := by
  intro rem
  induction rem with
  | zero => intro b; rfl
  | succ rem ih =>
      intro b
      simp only [getDataGo]
      cases statusOf (respond (b + 1)) with
      | error e => simp
      | ok st =>
          by_cases h1 : pyEq st (.intV 1) = true
          · simp [h1]
          · by_cases h2 : pyEq st (.intV (-1)) = true
            · by_cases h3 : rem = 0
              · simp [h1, h2, h3]
              · have ih' := ih (b + 1)
                simp only [h1, h2, Bool.false_eq_true, Bool.true_eq_false, if_false,
                  if_true, beq_iff_eq, h3, List.length_cons, List.range'_succ,
                  List.map_cons, Nat.add_sub_cancel, List.cons.injEq, true_and]
                exact ih'
            · simp [h1, h2]

/-- As `getDataGo_trace`, for the `_fetch_schedule` loop. -/
theorem fetchScheduleGo_trace (mint : Nat → Nat) (respond : Nat → Val) :
    ∀ rem b, (fetchScheduleGo mint respond rem (b + 1)).1 =
      (List.range' b (fetchScheduleGo mint respond rem (b + 1)).1.length).map mint := by
  intro rem
  induction rem with
  | zero => intro b; rfl
  | succ rem ih =>
      intro b
      simp only [fetchScheduleGo]
      cases statusOf (respond (b + 1)) with
      | error e => simp
      | ok st =>
          by_cases h1 : pyEq st (.intV 1) = true
          · cases respond (b + 1) <;> simp [h1]
          · by_cases h2 : (pyEq st (.intV (-1)) && rem != 0) = true
            · have ih' := ih (b + 1)
              simp only [h1, h2, Bool.false_eq_true, Bool.true_eq_false, if_false,
                if_true, List.length_cons, List.range'_succ, List.map_cons,
                Nat.add_sub_cancel, List.cons.injEq, true_and]
              exact ih'
            · simp [h1, h2]

/-- Claim C1, counterexample.  The claim states that no token value is ever
sent on two different attempts of the same logical request.  In
`set_schedule` the JWT is part of the `params` dict built once before the
retry loop, so a run whose first attempt draws the transient status `-1`
sends the very same token on attempts 1 and 2, even though the minter
(here the identity, so all mintable tokens are distinct) would have
provided a fresh one. -/
theorem setSchedule_token_reuse_counterexample :
    (setScheduleModel (fun n => n) respRetryOnce 3).1.length = 2 ∧
    (setScheduleModel (fun n => n) respRetryOnce 3).1[0]? =
      (setScheduleModel (fun n => n) respRetryOnce 3).1[1]? := by
  exact ⟨rfl, rfl⟩

/-- Claim C1, amended: `get_data` and `_fetch_schedule` mint a fresh JWT on
every attempt (the token trace is the minter applied to consecutive fresh
indices, so no token value recurs when minting is injective), but
`set_schedule` mints a single JWT before its loop and re-sends that same
token on every retry attempt. -/
theorem token_minting_per_attempt (mint : Nat → Nat) (respond : Nat → Val)
    (now : String) (retries : Nat) :
    (setScheduleModel mint respond retries).1 =
      List.replicate (setScheduleModel mint respond retries).1.length (mint 0) ∧
    (getDataModel mint respond now retries).1 =
      (List.range (getDataModel mint respond now retries).1.length).map mint ∧
    (fetchScheduleModel mint respond retries).1 =
      (List.range (fetchScheduleModel mint respond retries).1.length).map mint := by
  refine ⟨?_, ?_, ?_⟩
  · simpa [setScheduleModel] using setScheduleGo_trace (mint 0) respond retries 1
  · simpa [getDataModel, List.range_eq_range'] using
      getDataGo_trace mint respond now retries 0
  · simpa [fetchScheduleModel, List.range_eq_range'] using
      fetchScheduleGo_trace mint respond retries 0

/-- Claim C2, counterexample.  The claim states that a response whose
application status is neither `1` nor `-1` makes the executor fail with the
full body, and is never returned as a success.  `set_schedule` returns the
status-2 body as its ordinary result, and `get_data`, which does raise,
raises the same exception for two entirely different fatal bodies — the
`json.dumps(body, 2)` call on its diagnostic line passes `2` to a
keyword-only parameter position and raises `TypeError` before the message
carrying the body is ever built. -/
theorem fatal_status_counterexample :
    (setScheduleModel (fun n => n) (fun _ => .objV [("status", .intV 2)]) 3).2 =
      .ok (.objV [("status", .intV 2)]) ∧
    (getDataModel (fun n => n)
        (fun _ => .objV [("status", .intV 5), ("detail", .strV "bad")]) "t" 3).2 =
      (getDataModel (fun n => n) (fun _ => .objV [("status", .intV 7)]) "t" 3).2 := by
  exact ⟨rfl, rfl⟩

/-- Claim C2, amended: on a first response whose status is neither `1` nor
`-1`, both executors stop after exactly one attempt and neither ever
retries; `get_data` raises — though the exception it surfaces is the
constant `TypeError` from the misused `json.dumps(body, 2)` call, carrying
neither the status nor the body — while `set_schedule` does not fail at
all: it returns the fatal body as its ordinary (success) result. -/
theorem fatal_status_first_occurrence (mint : Nat → Nat) (respond : Nat → Val)
    (now : String) (retries : Nat) (st : Val)
    (hst : statusOf (respond 1) = .ok st)
    (h1 : pyEq st (.intV 1) = false)
    (hm1 : pyEq st (.intV (-1)) = false)
    (hr : 1 ≤ retries) :
    (setScheduleModel mint respond retries).2 = .ok (respond 1) ∧
    (setScheduleModel mint respond retries).1.length = 1 ∧
    (getDataModel mint respond now retries).2 =
      .error "TypeError: dumps() takes 1 positional argument but 2 were given" ∧
    (getDataModel mint respond now retries).1.length = 1 := by
  obtain ⟨rem, rfl⟩ : ∃ rem, retries = rem + 1 := ⟨retries - 1, by omega⟩
  refine ⟨?_, ?_, ?_, ?_⟩ <;>
    simp [setScheduleModel, getDataModel, setScheduleGo, getDataGo, hst, h1, hm1]

/-- Witness for `fatal_status_first_occurrence` at a concrete fatal body. -/
theorem fatal_status_first_occurrence_witness :
    (setScheduleModel (fun n => n) (fun _ => .objV [("status", .intV 3)]) 2).2 =
      .ok (.objV [("status", .intV 3)]) ∧
    (setScheduleModel (fun n => n) (fun _ => .objV [("status", .intV 3)]) 2).1.length = 1 ∧
    (getDataModel (fun n => n) (fun _ => .objV [("status", .intV 3)]) "t" 2).2 =
      .error "TypeError: dumps() takes 1 positional argument but 2 were given" ∧
    (getDataModel (fun n => n) (fun _ => .objV [("status", .intV 3)]) "t" 2).1.length = 1 :=
  fatal_status_first_occurrence (fun n => n) (fun _ => .objV [("status", .intV 3)])
    "t" 2 (.intV 3) rfl rfl rfl (by omega)

/-! ## Entry construction (`build_entries`, merge_and_push_schedule.py lines 100-154)

`ends` entries model the Python values: `none` is `None`, `some ""` is an
empty string; both are falsy under `if et:`. -/

/-- Python `zip(starts, ends, labels)`: stops at the shortest sequence. -/
def zip3 : List String → List (Option String) → List String →
    List (String × Option String × String)
  | s :: ss, e :: es, l :: ls => (s, e, l) :: zip3 ss es ls
  | _, _, _ => []

/-- The body of the `build_entries` loop for one `(st, et, lid)` triple:
the dict literal in source order, then `endTime` when the end string is
truthy, else `expirationInterval` when given, else the `ValueError`;
reminder intervals are attached only when non-empty. -/
def buildOne (itemId : String) (expirationInterval : Option Int)
    (reminderIntervals : List Int) (randomizationScheme : Int)
    (st : String) (et : Option String) (lid : String) : Except String Rec := do
  let base : Rec :=
    [("startTime", .strV st), ("scheduledTime", .strV st),
     ("itemId", .strV itemId), ("beepId", .intV 0), ("localId", .strV lid),
     ("randomizationScheme", .intV randomizationScheme)]
  let withEnd ←
    match et with
    | some e =>
        if e != "" then pure (dictSet base "endTime" (.strV e))
        else
          match expirationInterval with
          | some n => pure (dictSet base "expirationInterval" (.intV n))
          | none => Except.error "Need endTime or expiration_interval."
    | none =>
        match expirationInterval with
        | some n => pure (dictSet base "expirationInterval" (.intV n))
        | none => Except.error "Need endTime or expiration_interval."
  if reminderIntervals.isEmpty then pure withEnd
  else pure (dictSet withEnd "reminderIntervals" (.listV (reminderIntervals.map Val.intV)))

/-- The `for st, et, lid in zip(...)` loop: entries are appended in order;
an exception aborts the whole call, so no partial list ever escapes. -/
def buildLoop (itemId : String) (expirationInterval : Option Int)
    (reminderIntervals : List Int) (randomizationScheme : Int) :
    List (String × Option String × String) → Except String (List Rec)
  | [] => pure []
  | (st, et, lid) :: rest => do
      let e ← buildOne itemId expirationInterval reminderIntervals randomizationScheme st et lid
      let es ← buildLoop itemId expirationInterval reminderIntervals randomizationScheme rest
      pure (e :: es)

/-- `build_entries`: the length check runs before anything is built, then
labels are padded with `auto_1`, `auto_2`, … (a counter restarting at 1 on
every call) up to the length of `starts`, and the loop builds one entry per
start time. -/
def buildEntries (starts : List String) (ends : List (Option String))
    (itemId : String) (labels : List String) (expirationInterval : Option Int)
    (reminderIntervals : List Int) (randomizationScheme : Int) :
    Except String (List Rec) :=
  if starts.length != ends.length then .error "starts and ends length mismatch"
  else
    let labels := labels ++
      (List.range (starts.length - labels.length)).map (fun i => "auto_" ++ toString (i + 1))
    buildLoop itemId expirationInterval reminderIntervals randomizationScheme
      (zip3 starts ends labels)

/-- If some triple in the loop has a falsy end and no expiration interval
is available, the whole loop fails with the fixed missing-end message. -/
theorem buildLoop_missing_end (itemId : String) (rmd : List Int) (rand : Int) :
    ∀ l : List (String × Option String × String),
      (∃ x ∈ l, x.2.1 = none ∨ x.2.1 = some "") →
      buildLoop itemId none rmd rand l = .error "Need endTime or expiration_interval." := by
  intro l
  induction l with
  | nil => rintro ⟨x, hx, -⟩; cases hx
  | cons hd tl ih =>
      rintro ⟨x, hx, hfalsy⟩
      obtain ⟨st, et, lid⟩ := hd
      rcases List.mem_cons.mp hx with rfl | hmem
      · rcases hfalsy with h | h <;>
          simp_all [buildLoop, buildOne, Bind.bind, Except.bind]
      · cases het : et with
        | none => simp [buildLoop, buildOne, het, Bind.bind, Except.bind]
        | some e =>
            by_cases he : e = ""
            · simp [buildLoop, buildOne, het, he, Bind.bind, Except.bind]
            · have htl := ih ⟨x, hmem, hfalsy⟩
              by_cases hr : rmd = []
              · subst hr
                simp [buildLoop, buildOne, het, he, htl, Bind.bind, Except.bind,
                  pure, Except.pure]
              · simp [buildLoop, buildOne, het, he, hr, htl, Bind.bind, Except.bind,
                  pure, Except.pure]

/-- Membership of an end value transfers into the zipped triple list when
the three sequences are long enough. -/
theorem zip3_mem_of_ends :
    ∀ (es : List (Option String)) (ss ls : List String),
      ss.length = es.length → es.length ≤ ls.length →
      ∀ e ∈ es, ∃ s l, (s, e, l) ∈ zip3 ss es ls := by
  intro es
  induction es with
  | nil => intro ss ls _ _ e he; cases he
  | cons e' es ih =>
      intro ss ls hss hls e he
      cases ss with
      | nil => simp at hss
      | cons s ss =>
          cases ls with
          | nil => simp at hls
          | cons l ls =>
              rcases List.mem_cons.mp he with rfl | hmem
              · exact ⟨s, l, List.mem_cons_self _ _⟩
              · obtain ⟨s', l', hm⟩ := ih ss ls (by simpa using hss) (by simpa using hls) e hmem
                exact ⟨s', l', List.mem_cons_of_mem _ hm⟩

/-- Claim C3, counterexample.  The claim states that the missing-end failure
names the offending index.  The raised `ValueError` is the fixed string
`"Need endTime or expiration_interval."`: two calls whose offending index
differs (index 1 versus index 0) produce the identical error value, so the
failure cannot name the index. -/
theorem buildEntries_missing_end_counterexample :
    buildEntries ["2025-01-01 09:00:00", "2025-01-02 09:00:00"]
        [some "2025-01-01 10:00:00", none] "X" [] none [] 0 =
      buildEntries ["2025-01-01 09:00:00", "2025-01-02 09:00:00"]
        [none, some "2025-01-01 10:00:00"] "X" [] none [] 0 ∧
    buildEntries ["2025-01-01 09:00:00", "2025-01-02 09:00:00"]
        [some "2025-01-01 10:00:00", none] "X" [] none [] 0 =
      .error "Need endTime or expiration_interval." := by
  exact ⟨rfl, rfl⟩

/-- Claim C3, amended: a length mismatch between `ends` and `starts` fails
with the length-mismatch `ValueError` before any entry is built, and an
entry for which neither a truthy end time nor an expiration interval is
available fails the whole call — no partial entry list is produced — with
the missing-end `ValueError`, whose message is the fixed string
`"Need endTime or expiration_interval."` and does not name the offending
index. -/
theorem buildEntries_validation (starts : List String) (ends : List (Option String))
    (itemId : String) (labels : List String) (rmd : List Int) (rand : Int) :
    (starts.length ≠ ends.length →
      buildEntries starts ends itemId labels none rmd rand =
        .error "starts and ends length mismatch") ∧
    (starts.length = ends.length →
      (∃ e ∈ ends, e = none ∨ e = some "") →
      buildEntries starts ends itemId labels none rmd rand =
        .error "Need endTime or expiration_interval.") := by
  constructor
  · intro hne
    simp [buildEntries, hne]
  · intro hlen ⟨e, he, hfalsy⟩
    have hlab : ends.length ≤
        (labels ++ (List.range (starts.length - labels.length)).map
          (fun i => "auto_" ++ toString (i + 1))).length := by
      simp [List.length_append, List.length_map, List.length_range]
      omega
    obtain ⟨s, l, hm⟩ := zip3_mem_of_ends ends starts _ hlen hlab e he
    have hloop := buildLoop_missing_end itemId rmd rand _ ⟨(s, e, l), hm, hfalsy⟩
    simp only [buildEntries, hlen] at hloop ⊢
    simp [hloop]

/-- Witness for `buildEntries_validation` at concrete inputs. -/
theorem buildEntries_validation_witness :
    buildEntries ["a", "b"] [some "e"] "X" [] none [] 0 =
      .error "starts and ends length mismatch" ∧
    buildEntries ["a"] [none] "X" [] none [] 0 =
      .error "Need endTime or expiration_interval." :=
  ⟨(buildEntries_validation ["a", "b"] [some "e"] "X" [] [] 0).1 (by decide),
   (buildEntries_validation ["a"] [none] "X" [] [] 0).2 rfl ⟨none, by simp⟩⟩

/-! ### Python string primitives

Lean's own `String.replace`/`splitOn`/`trim` are compiled by well-founded
recursion and do not reduce in the kernel, so the Python string operations
the repository uses are modelled structurally on the character list. -/

/-- Python `s.replace("T", " ")` (a single-character pattern, so it is a
character-wise map). -/
def replaceTBySpace (s : String) : String :=
  String.mk (s.data.map (fun c => if c = 'T' then ' ' else c))

/-- Python `s.split("+")[0]`: everything before the first `+` (the whole
string when there is none). -/
def beforePlus (s : String) : String :=
  String.mk (s.data.takeWhile (fun c => c != '+'))

/-- Python `s.strip()`. -/
def pyStrip (s : String) : String :=
  String.mk (((s.data.dropWhile Char.isWhitespace).reverse.dropWhile
    Char.isWhitespace).reverse)

/-- Python `s.startswith("[")`. -/
def startsWithBracket (s : String) : Bool :=
  match s.data with
  | c :: _ => c == '['
  | [] => false

/-- Python `s.endswith("]")`. -/
def endsWithBracket (s : String) : Bool :=
  match s.data.getLast? with
  | some c => c == ']'
  | none => false

/-- Is `pat` a prefix of the character list? -/
def listIsPrefix : List Char → List Char → Bool
  | [], _ => true
  | _ :: _, [] => false
  | a :: as, b :: bs => a == b && listIsPrefix as bs

/-- Does the character list contain `pat` as a contiguous sublist? -/
def listContainsSub (pat : List Char) : List Char → Bool
  | [] => listIsPrefix pat []
  | c :: rest => listIsPrefix pat (c :: rest) || listContainsSub pat rest

/-- Python `pat in s` on strings. -/
def strContainsSub (s pat : String) : Bool := listContainsSub pat.data s.data

/-! ## Schedule reconciliation (merge_and_push_schedule.py lines 156-197) -/

/-- `_WHITELIST` (merge_and_push_schedule.py lines 93-98). -/
def WHITELIST : List String :=
  ["startTime", "endTime", "scheduledTime", "itemId", "beepId", "localId",
   "expirationInterval", "reminderIntervals", "randomizationScheme"]

/-- `_clean(rec)` (merge_and_push_schedule.py lines 157-171): keep only
whitelisted keys, drop a float NaN value, and re-parse a string of the
shape `"[...]"` through `json.loads` (`loads` is that external call;
on failure the original string is kept — never raised). -/
def cleanEntry (loads : String → Option Val) (entry : Rec) : Rec :=
  entry.foldl (fun out (k, v) =>
    if !WHITELIST.contains k then out
    else
      match v with
      | .nanV => out
      | .strV s =>
          if startsWithBracket s && endsWithBracket s then
            match loads s with
            | some p => dictSet out k p
            | none => dictSet out k (.strV s)
          else dictSet out k (.strV s)
      | v => dictSet out k v) []

/-- The merge performed by `merge_and_push` (lines 196-197):
`[_clean(r) for r in remote] + new_entries`. -/
def reconcile (loads : String → Option Val) (remote new : List Rec) : List Rec :=
  remote.map (cleanEntry loads) ++ new

/-- Claim C4 (confirmed): the reconciled sequence is exactly the cleaned
remote entries followed by the new entries in that order — positionally,
entry `i` is the cleaned `i`-th remote entry while it exists and the
`(i - len remote)`-th new entry afterwards, so nothing is reordered or
deduplicated — and its length is `len (clean remote) + len new`. -/
theorem reconcile_is_clean_append (loads : String → Option Val)
    (remote newEntries : List Rec) :
    reconcile loads remote newEntries =
      remote.map (cleanEntry loads) ++ newEntries ∧
    (reconcile loads remote newEntries).length =
      (remote.map (cleanEntry loads)).length + newEntries.length ∧
    (∀ i : Nat, (reconcile loads remote newEntries)[i]? =
      if i < remote.length then (remote[i]?).map (cleanEntry loads)
      else newEntries[i - remote.length]?) := by
  refine ⟨rfl, by simp [reconcile], ?_⟩
  intro i
  rw [reconcile, List.getElem?_append]
  simp only [List.length_map]
  by_cases h : i < remote.length
  · simp [h, List.getElem?_map]
  · simp [h]

/-! ## Ordered serialization (schedule_json_builder.py) -/

/-- `ORDER` (schedule_json_builder.py lines 17-20), the module's original
canonical key order, bound at definition time. -/
def ORDER0 : List String :=
  ["itemId", "localId", "endTime", "startTime",
   "beepId", "scheduledTime", "reminderIntervals", "randomizationScheme"]

/-- `TIME_KEYS` (line 21), the module's original constant.  The source is a
Python set; only membership is ever used, so a list models it. -/
def TIMEKEYS0 : List String := ["startTime", "endTime", "scheduledTime"]

/-- `str(v).replace("T", " ").split("+")[0]`. -/
def stripOffset (s : String) : String := beforePlus (replaceTBySpace s)

/-- `_fmt_time(v)` (lines 24-30): `None` when `pd.isna`, `strftime` on a
timestamp/datetime, otherwise the string form with the literal `T`
replaced by a space and anything from the first `+` on dropped. -/
def fmtTime (v : Val) : Except String Val := do
  let na ← pdIsna v
  if na then pure .nullV
  else
    match v with
    | .tsV y mo dy hh mi ss => pure (.strV (tsFormat y mo dy hh mi ss))
    | v => pure (.strV (stripOffset (pyStr v)))

/-- Python `isinstance(v, collections.abc.Sequence)`: lists and strings
qualify (dicts do not). -/
def isSeqV : Val → Bool
  | .listV _ => true
  | .strV _ => true
  | _ => false

/-- Python `list(v)` on a sequence (a string lists its characters). -/
def seqToList : Val → List Val
  | .listV l => l
  | .strV s => s.data.map (fun c => .strV (String.singleton c))
  | _ => []

/-- `_fix_reminders(v)` (lines 32-45), with `ast.literal_eval` supplied as
`lit` (`none` = the parse raised).  The guard evaluates
`v is None or (isinstance(v, (list, tuple)) and len(v) == 0) or pd.isna(v)`
with Python short-circuiting, so a non-empty list of two or more values
reaches `pd.isna`, whose array result makes the surrounding `or` raise the
ambiguous-truth `ValueError`.  A string is parsed; a parsed sequence
comes back as a list, a parse failure returns `None`, and a scalar parse
falls through to `list(v)` over the original string (Python strings are
sequences).  Other sequences are listed; everything else yields `None`. -/
def fixReminders (lit : String → Option Val) (v : Val) :
    Except String (Option (List Val)) := do
  let g ← (match v with
    | .nullV => pure true
    | .listV [] => pure true
    | v => pdIsna v)
  if g then pure none
  else
    match v with
    | .strV s =>
        match lit (pyStrip s) with
        | none => pure none
        | some p =>
            if isSeqV p then pure (some (seqToList p))
            else pure (some (seqToList (Val.strV s)))
    | v => if isSeqV v then pure (some (seqToList v)) else pure none

/-- `f"auto_{idx+1:04d}"` (line 55). -/
def autoLabel (idx : Nat) : String := "auto_" ++ pad4 (idx + 1)

/-- The value (if any) that one iteration of the `_to_api_dict` loop body
(lines 50-61) assigns to `od[k]`: `beepId` is forced to the sentinel `0`
for every entry, `localId` falls back to the generated label when the
source value is missing or falsy, `reminderIntervals` is attached only
when `_fix_reminders` yields a truthy (non-empty) list, and any other key
is copied when present and `pd.notna`, time keys being reformatted by
`_fmt_time`. -/
def apiStepVal (lit : String → Option Val) (timeKeys : List String)
    (src : Rec) (idx : Nat) (k : String) : Except String (Option Val) :=
  if k == "beepId" then pure (some (.intV 0))
  else if k == "localId" then
    pure (some (match dictLookup src k with
      | some v => if truthy v then v else .strV (autoLabel idx)
      | none => .strV (autoLabel idx)))
  else if k == "reminderIntervals" then do
    let ri ← fixReminders lit ((dictLookup src k).getD .nullV)
    match ri with
    | some l => if !l.isEmpty then pure (some (.listV l)) else pure none
    | none => pure none
  else
    match dictLookup src k with
    | none => pure none
    | some v => do
        let b ← pdNotna v
        if b then
          if timeKeys.contains k then do
            let t ← fmtTime v
            pure (some t)
          else pure (some v)
        else pure none

/-- One iteration of the `for k in ORDER` loop: perform `od[k] = value`
when `apiStepVal` yields one. -/
def apiStep (lit : String → Option Val) (timeKeys : List String)
    (src : Rec) (idx : Nat) (od : Rec) (k : String) : Except String Rec := do
  let ov ← apiStepVal lit timeKeys src idx k
  match ov with
  | some v => pure (dictSet od k v)
  | none => pure od

/-- The `for k in ORDER` loop over the whole key order. -/
def toApiGo (lit : String → Option Val) (timeKeys : List String)
    (src : Rec) (idx : Nat) : List String → Rec → Except String Rec
  | [], od => pure od
  | k :: ks, od => do
      let od1 ← apiStep lit timeKeys src idx od k
      toApiGo lit timeKeys src idx ks od1

/-- `_to_api_dict(src, idx, is_new)` (lines 47-62; `is_new` is unused in
the source), reading the key order and time-key set it is configured
with; the result models the `OrderedDict` as an assoc list in insertion
order. -/
def toApiDict (lit : String → Option Val) (order timeKeys : List String)
    (src : Rec) (idx : Nat) : Except String Rec :=
  toApiGo lit timeKeys src idx order []

/-! ### Dict lemmas -/

theorem dictLookup_eq_none_of_not_mem (l : Rec) (k : String)
    (h : k ∉ l.map Prod.fst) : dictLookup l k = none := by
  induction l with
  | nil => rfl
  | cons hd tl ih =>
      obtain ⟨k', v⟩ := hd
      simp only [List.map_cons, List.mem_cons, not_or] at h
      rw [dictLookup, if_neg (fun hh => h.1 hh.symm)]
      exact ih h.2

theorem dictSet_fresh_append (od : Rec) (k : String) (v : Val)
    (h : k ∉ od.map Prod.fst) : dictSet od k v = od ++ [(k, v)] := by
  induction od with
  | nil => rfl
  | cons hd tl ih =>
      obtain ⟨k', w⟩ := hd
      simp only [List.map_cons, List.mem_cons, not_or] at h
      rw [dictSet, if_neg (fun hh => h.1 hh.symm)]
      simp [ih h.2]

theorem dictLookup_set_self (od : Rec) (k : String) (v : Val) :
    dictLookup (dictSet od k v) k = some v := by
  induction od with
  | nil => simp [dictSet, dictLookup]
  | cons hd tl ih =>
      obtain ⟨k', w⟩ := hd
      by_cases hk : k' = k
      · simp [dictSet, dictLookup, hk]
      · simp [dictSet, dictLookup, hk, ih]

theorem dictLookup_append (a b : Rec) (k : String) :
    dictLookup (a ++ b) k =
      match dictLookup a k with
      | some v => some v
      | none => dictLookup b k := by
  induction a with
  | nil => simp [dictLookup]
  | cons hd tl ih =>
      obtain ⟨k', w⟩ := hd
      by_cases hk : k' = k
      · simp [dictLookup, hk]
      · simp [dictLookup, hk, ih]

/-- Running the `_to_api_dict` loop over a duplicate-free key list, over a
dict whose keys are disjoint from it, appends a sub-order of the key list
and stores, for each key of the list, exactly what its own step yields. -/
theorem toApiGo_characterize (lit : String → Option Val) (timeKeys : List String)
    (src : Rec) (idx : Nat) :
    ∀ (ks : List String) (od od' : Rec),
      toApiGo lit timeKeys src idx ks od = .ok od' →
      ks.Nodup → (∀ k ∈ ks, k ∉ od.map Prod.fst) →
      (∃ ext : Rec, od' = od ++ ext ∧ (ext.map Prod.fst).Sublist ks) ∧
      (∀ k ∈ ks, ∃ ov, apiStepVal lit timeKeys src idx k = .ok ov ∧
        dictLookup od' k = ov) := by
  intro ks
  induction ks with
  | nil =>
      intro od od' hok _ _
      obtain rfl : od = od' := by
        simpa [toApiGo, pure, Except.pure] using hok
      exact ⟨⟨[], by simp, by simp⟩, by simp⟩
  | cons k ks ih =>
      intro od od' hok hnd hfresh
      obtain ⟨hk_ks, hnd'⟩ := List.nodup_cons.mp hnd
      have hk_fresh : k ∉ od.map Prod.fst := hfresh k (List.mem_cons_self _ _)
      simp only [toApiGo, Bind.bind, Except.bind] at hok
      cases hstep : apiStep lit timeKeys src idx od k with
      | error e => rw [hstep] at hok; cases hok
      | ok od1 =>
          rw [hstep] at hok
          obtain ⟨ov, hov, hod1⟩ : ∃ ov, apiStepVal lit timeKeys src idx k = .ok ov ∧
              od1 = (match ov with | some v => dictSet od k v | none => od) := by
            unfold apiStep at hstep
            cases hv : apiStepVal lit timeKeys src idx k with
            | error e => rw [hv] at hstep; simp [Bind.bind, Except.bind] at hstep
            | ok ov =>
                rw [hv] at hstep
                refine ⟨ov, rfl, ?_⟩
                cases ov with
                | some v =>
                    simp only [Bind.bind, Except.bind, pure, Except.pure,
                      Except.ok.injEq] at hstep
                    exact hstep.symm
                | none =>
                    simp only [Bind.bind, Except.bind, pure, Except.pure,
                      Except.ok.injEq] at hstep
                    exact hstep.symm
          have hfresh1 : ∀ k' ∈ ks, k' ∉ od1.map Prod.fst := by
            intro k' hk'
            have hker : k' ≠ k := fun hh => hk_ks (hh ▸ hk')
            have hkod : k' ∉ od.map Prod.fst := hfresh k' (List.mem_cons_of_mem _ hk')
            cases ov with
            | none =>
                have hod1' : od1 = od := hod1
                simpa [hod1'] using hkod
            | some v =>
                have hod1' : od1 = dictSet od k v := hod1
                rw [hod1', dictSet_fresh_append od k v hk_fresh]
                simp [hkod, hker]
          obtain ⟨⟨ext, hod', hsub⟩, hlook⟩ := ih od1 od' hok hnd' hfresh1
          have hk_not_ext : k ∉ ext.map Prod.fst := fun hmem => hk_ks (hsub.subset hmem)
          constructor
          · cases ov with
            | some v =>
                have hod1' : od1 = dictSet od k v := hod1
                refine ⟨(k, v) :: ext, ?_, ?_⟩
                · rw [hod', hod1', dictSet_fresh_append od k v hk_fresh]
                  simp
                · simpa using hsub.cons₂ k
            | none =>
                have hod1' : od1 = od := hod1
                refine ⟨ext, ?_, hsub.trans (List.sublist_cons_self k ks)⟩
                rw [hod', hod1']
          · intro k0 hk0
            rcases List.mem_cons.mp hk0 with rfl | hk0'
            · refine ⟨ov, hov, ?_⟩
              rw [hod', dictLookup_append]
              have hext : dictLookup ext k0 = none :=
                dictLookup_eq_none_of_not_mem ext k0 hk_not_ext
              cases ov with
              | some v =>
                  have hod1' : od1 = dictSet od k0 v := hod1
                  rw [hod1', dictLookup_set_self]
              | none =>
                  have hod1' : od1 = od := hod1
                  rw [hod1', dictLookup_eq_none_of_not_mem od k0 hk_fresh, hext]
            · exact hlook k0 hk0'

/-- The step value for a time key of the canonical configuration always
comes from reformatting a present, non-NA source value with `_fmt_time`. -/
theorem apiStepVal_time_key (lit : String → Option Val) (timeKeys : List String)
    (src : Rec) (idx : Nat) (k : String) (ov : Option Val) (v : Val)
    (h1 : (k == "beepId") = false) (h2 : (k == "localId") = false)
    (h3 : (k == "reminderIntervals") = false)
    (h4 : timeKeys.contains k = true)
    (h : apiStepVal lit timeKeys src idx k = .ok ov) (hv : ov = some v) :
    ∃ w, dictLookup src k = some w ∧ fmtTime w = .ok v := by
  subst hv
  simp only [apiStepVal, h1, h2, h3, Bool.false_eq_true, if_false] at h
  cases hsrc : dictLookup src k with
  | none => rw [hsrc] at h; simp [pure, Except.pure] at h
  | some w =>
      rw [hsrc] at h
      dsimp only at h
      cases hb : pdNotna w with
      | error e => rw [hb] at h; simp [Bind.bind, Except.bind] at h
      | ok b =>
          rw [hb] at h
          cases b with
          | false => simp [Bind.bind, Except.bind, pure, Except.pure] at h
          | true =>
              simp only [Bind.bind, Except.bind, h4, if_true] at h
              cases hft : fmtTime w with
              | error e => rw [hft] at h; simp at h
              | ok t =>
                  rw [hft] at h
                  simp only [pure, Except.pure, Except.ok.injEq,
                    Option.some.injEq] at h
                  exact ⟨w, rfl, by rw [hft, h]⟩

/-- Claim C6 (confirmed): every entry emitted by `_to_api_dict` under the
module's canonical configuration has its keys in the canonical order
(`itemId`, `localId`, `endTime`, `startTime`, `beepId`, `scheduledTime`,
`reminderIntervals`, `randomizationScheme` — formally, the emitted key
sequence is a sub-order of `ORDER0`), carries the unassigned sentinel `0`
as its beep identifier whatever the source row was, and stores for every
emitted time key the `_fmt_time` reformatting (strip the literal `T`,
drop any trailing `+`-offset) of the source value. -/
theorem toApiDict_canonical (lit : String → Option Val) (src : Rec) (idx : Nat)
    (od : Rec) (hok : toApiDict lit ORDER0 TIMEKEYS0 src idx = .ok od) :
    (od.map Prod.fst).Sublist ORDER0 ∧
    dictLookup od "beepId" = some (.intV 0) ∧
    (∀ k ∈ TIMEKEYS0, ∀ v, dictLookup od k = some v →
      ∃ w, dictLookup src k = some w ∧ fmtTime w = .ok v) := by
  have hchar := toApiGo_characterize lit TIMEKEYS0 src idx ORDER0 [] od hok
    (by decide) (by simp)
  obtain ⟨⟨ext, hod, hsub⟩, hlook⟩ := hchar
  refine ⟨?_, ?_, ?_⟩
  · rw [hod]; simpa using hsub
  · obtain ⟨ov, hov, hl⟩ := hlook "beepId" (by decide)
    have hov0 : ov = some (.intV 0) := by
      have hb : apiStepVal lit TIMEKEYS0 src idx "beepId" = .ok (some (.intV 0)) := rfl
      rw [hb, Except.ok.injEq] at hov
      exact hov.symm
    rw [hl, hov0]
  · intro k hk v hv
    have hkO : k ∈ ORDER0 := by
      simp only [TIMEKEYS0, List.mem_cons, List.not_mem_nil, or_false] at hk
      rcases hk with rfl | rfl | rfl <;> decide
    obtain ⟨ov, hov, hl⟩ := hlook k hkO
    have hovv : ov = some v := by rw [← hl, hv]
    have hbne : (k == "beepId") = false ∧ (k == "localId") = false ∧
        (k == "reminderIntervals") = false ∧ TIMEKEYS0.contains k = true := by
      simp only [TIMEKEYS0, List.mem_cons, List.not_mem_nil, or_false] at hk
      rcases hk with rfl | rfl | rfl <;> exact ⟨rfl, rfl, rfl, rfl⟩
    exact apiStepVal_time_key lit TIMEKEYS0 src idx k ov v
      hbne.1 hbne.2.1 hbne.2.2.1 hbne.2.2.2 hov hovv

/-- Witness for `toApiDict_canonical`: a source row with an item id and an
offset-carrying start time. -/
theorem toApiDict_canonical_witness :
    ((([("itemId", Val.strV "X"), ("localId", Val.strV "auto_0001"),
        ("startTime", Val.strV "2025-01-01 09:00:00"),
        ("beepId", Val.intV 0)] : Rec).map Prod.fst).Sublist ORDER0 ∧
     dictLookup [("itemId", Val.strV "X"), ("localId", Val.strV "auto_0001"),
        ("startTime", Val.strV "2025-01-01 09:00:00"),
        ("beepId", Val.intV 0)] "beepId" = some (.intV 0) ∧
     (∀ k ∈ TIMEKEYS0, ∀ v,
        dictLookup [("itemId", Val.strV "X"), ("localId", Val.strV "auto_0001"),
          ("startTime", Val.strV "2025-01-01 09:00:00"),
          ("beepId", Val.intV 0)] k = some v →
        ∃ w, dictLookup [("itemId", Val.strV "X"),
          ("startTime", Val.strV "2025-01-01T09:00:00+02:00")] k = some w ∧
          fmtTime w = .ok v)) :=
  toApiDict_canonical (fun _ => none)
    [("itemId", Val.strV "X"), ("startTime", Val.strV "2025-01-01T09:00:00+02:00")]
    0 _ (by rfl)

/-! ## Module state of schedule_json_builder (claim C10) -/

/-- The module-level globals `ORDER` and `TIME_KEYS` of
schedule_json_builder.py. -/
structure SchedMod where
  order : List String
  timeKeys : List String

/-- The module as imported: globals bound to the original constants. -/
def initSchedMod : SchedMod := ⟨ORDER0, TIMEKEYS0⟩

/-- `_to_api_dict` reads the globals of the current module state. -/
def toApiDictSt (lit : String → Option Val) (st : SchedMod) (src : Rec)
    (idx : Nat) : Except String Rec :=
  toApiDict lit st.order st.timeKeys src idx

/-- `combine_entries(df_future, new_beeps, order, time_keys)` (lines
65-89).  Python evaluates default argument values at function-definition
time, so an omitted `order`/`time_keys` argument (modelled as `none`)
supplies the module's original constants — not the current globals.  The
function then rebinds the globals (`global ORDER, TIME_KEYS; ORDER =
order; TIME_KEYS = time_keys`) and builds every entry under the rebound
state, DataFrame rows first, new dicts after, the latter indexed past the
former.  The pair returned is the module state left behind and the Python
result. -/
def combineEntriesSt (lit : String → Option Val) (_st : SchedMod)
    (dfFuture newBeeps : List Rec)
    (orderArg timeKeysArg : Option (List String)) :
    SchedMod × Except String (List Rec) :=
  let ord := orderArg.getD ORDER0
  let tks := timeKeysArg.getD TIMEKEYS0
  let st1 : SchedMod := ⟨ord, tks⟩
  let res : Except String (List Rec) := do
    let fut ← dfFuture.enum.mapM (fun p => toApiDictSt lit st1 p.2 p.1)
    let nw ← newBeeps.enum.mapM (fun p => toApiDictSt lit st1 p.2 (p.1 + dfFuture.length))
    pure (fut ++ nw)
  (st1, res)

/-- Claim C10, counterexample.  The claim says a subsequent call relying
on the defaults observes the previous call's configuration instead of the
module's original constants.  Run `combine_entries` once with the custom
configuration `order=[], time_keys=set()`; the globals are now `[]`.  A
second, defaulted call then produces an entry laid out by the ORIGINAL
canonical order (its def-time defaults rebind the globals back), not the
empty entry that the previous configuration produces — refuting the
claim for defaulted `combine_entries` calls. -/
theorem combineEntries_defaults_counterexample :
    ((combineEntriesSt (fun _ => none) initSchedMod []
        [[("itemId", Val.strV "X")]] (some []) (some [])).1 =
      ⟨[], []⟩) ∧
    (combineEntriesSt (fun _ => none) (⟨[], []⟩ : SchedMod) []
        [[("itemId", Val.strV "X")]] none none).2 =
      .ok [[("itemId", Val.strV "X"), ("localId", Val.strV "auto_0001"),
            ("beepId", Val.intV 0)]] ∧
    (combineEntriesSt (fun _ => none) (⟨[], []⟩ : SchedMod) []
        [[("itemId", Val.strV "X")]] (some []) (some [])).2 = .ok [[]] ∧
    (combineEntriesSt (fun _ => none) (⟨[], []⟩ : SchedMod) []
        [[("itemId", Val.strV "X")]] none none).2 ≠ .ok [[]] := by
  refine ⟨rfl, rfl, rfl, ?_⟩
  intro h
  simp only [combineEntriesSt, toApiDictSt] at h
  cases h

/-- Claim C10, amended: `combine_entries` does rebind the module globals
`ORDER` and `TIME_KEYS` as a side effect — to its arguments when given,
and to its def-time default values, which are the module's original
constants, when omitted — and it leaves that state behind, so a later
direct `_to_api_dict` call observes the previous call's configuration.
A subsequent `combine_entries` call relying on the defaults, however,
rebinds the globals back to the original constants before building
anything: its resulting state is the initial module state and its whole
behaviour is independent of the state the previous call left. -/
theorem combineEntries_rebinds_globals (lit : String → Option Val)
    (st st' : SchedMod) (df nb : List Rec) (oa ta : Option (List String)) :
    (combineEntriesSt lit st df nb oa ta).1 =
      ⟨oa.getD ORDER0, ta.getD TIMEKEYS0⟩ ∧
    (combineEntriesSt lit st df nb none none).1 = initSchedMod ∧
    combineEntriesSt lit st df nb oa ta = combineEntriesSt lit st' df nb oa ta ∧
    toApiDictSt lit (combineEntriesSt lit st df nb oa ta).1 =
      toApiDict lit (oa.getD ORDER0) (ta.getD TIMEKEYS0) :=
  ⟨rfl, rfl, rfl, rfl⟩

/-! ## Timestamp localization (get_data.py lines 201-211, claim C9) -/

/-- Does a cell force pandas' `object` dtype?  Strings and (serialized)
compounds do; numbers, bools, NaN and missing values do not. -/
def cellObjectLike : Val → Bool
  | .strV _ => true
  | .listV _ => true
  | .objV _ => true
  | _ => false

/-- A column has `object` dtype when some cell is object-like. -/
def colDtypeObject (cells : List Val) : Bool := cells.any cellObjectLike

/-- The `ts_cols` selection (line 203-204): the column name contains the
marker substring `"timeStamp"` and the dtype is not `object`. -/
def tsSelected (name : String) (cells : List Val) : Bool :=
  strContainsSub name "timeStamp" && !colDtypeObject cells

/-- One cell of a selected column through
`pd.to_datetime(·, unit="ms", utc=True).dt.tz_convert(tz).dt.strftime(...)`
(lines 206-211), the timezone conversion — an external IANA-database
lookup — supplied as `fmt`.  `stack()` drops missing cells, so NaN/None
survive unchanged; a non-numeric cell in a numeric-dtype column makes
pandas raise. -/
def localizeCell (fmt : Int → String) : Val → Except String Val
  | .intV n => pure (.strV (fmt n))
  | .floatV n => pure (.strV (fmt n))
  | .nanV => pure .nanV
  | .nullV => pure .nullV
  | _ => .error "TypeError: to_datetime"

/-- Rewrite one column in place when selected, leave it otherwise. -/
def localizeCol (fmt : Int → String) (c : String × List Val) :
    Except String (String × List Val) :=
  if tsSelected c.1 c.2 then do
    let cells ← c.2.mapM (localizeCell fmt)
    pure (c.1, cells)
  else pure c

/-- The timestamp-localization step of `flatten_and_save`: each selected
column of the table is rewritten, every other column untouched. -/
def localizeTimestamps (fmt : Int → String) (cols : List (String × List Val)) :
    Except String (List (String × List Val)) :=
  cols.mapM (localizeCol fmt)

/-- What one localization pass leaves in a selected column: either some
cell became a string (the column is `object` from now on), or every cell
was already missing and the column is unchanged. -/
theorem localizeCells_pass (fmt : Int → String) :
    ∀ cells cells' : List Val, cells.mapM (localizeCell fmt) = .ok cells' →
      colDtypeObject cells' = true ∨
      (cells' = cells ∧ ∀ c ∈ cells, c = .nanV ∨ c = .nullV) := by
  intro cells
  induction cells with
  | nil =>
      intro cells' h
      simp only [List.mapM_nil, pure, Except.pure, Except.ok.injEq] at h
      exact Or.inr ⟨h.symm, by simp⟩
  | cons c cs ih =>
      intro cells' h
      rw [List.mapM_cons] at h
      cases hc : localizeCell fmt c with
      | error e => rw [hc] at h; simp [Bind.bind, Except.bind] at h
      | ok c' =>
          rw [hc] at h
          cases hcs : cs.mapM (localizeCell fmt) with
          | error e => rw [hcs] at h; simp [Bind.bind, Except.bind] at h
          | ok cs' =>
              rw [hcs] at h
              simp only [Bind.bind, Except.bind, pure, Except.pure,
                Except.ok.injEq] at h
              subst h
              cases c with
              | intV n => simp [localizeCell, pure, Except.pure] at hc
                          subst hc; exact Or.inl (by simp [colDtypeObject, cellObjectLike])
              | floatV n => simp [localizeCell, pure, Except.pure] at hc
                            subst hc; exact Or.inl (by simp [colDtypeObject, cellObjectLike])
              | nanV =>
                  simp only [localizeCell, pure, Except.pure, Except.ok.injEq] at hc
                  subst hc
                  rcases ih cs' hcs with hobj | ⟨rfl, hall⟩
                  · exact Or.inl (by simp [colDtypeObject] at hobj ⊢; exact Or.inr hobj)
                  · refine Or.inr ⟨rfl, ?_⟩
                    intro x hx
                    rcases List.mem_cons.mp hx with rfl | hx'
                    · exact Or.inl rfl
                    · exact hall x hx'
              | nullV =>
                  simp only [localizeCell, pure, Except.pure, Except.ok.injEq] at hc
                  subst hc
                  rcases ih cs' hcs with hobj | ⟨rfl, hall⟩
                  · exact Or.inl (by simp [colDtypeObject] at hobj ⊢; exact Or.inr hobj)
                  · refine Or.inr ⟨rfl, ?_⟩
                    intro x hx
                    rcases List.mem_cons.mp hx with rfl | hx'
                    · exact Or.inr rfl
                    · exact hall x hx'
              | boolV b => simp [localizeCell] at hc
              | strV s => simp [localizeCell] at hc
              | tsV y mo dy hh mi ss => simp [localizeCell] at hc
              | listV l => simp [localizeCell] at hc
              | objV f => simp [localizeCell] at hc

/-- A column of missing cells passes through localization unchanged. -/
theorem localizeCells_missing (fmt : Int → String) :
    ∀ cells : List Val, (∀ c ∈ cells, c = .nanV ∨ c = .nullV) →
      cells.mapM (localizeCell fmt) = .ok cells := by
  intro cells
  induction cells with
  | nil => intro _; rfl
  | cons c cs ih =>
      intro h
      have hc : localizeCell fmt c = .ok c := by
        rcases h c (List.mem_cons_self _ _) with rfl | rfl <;> rfl
      have hcs := ih (fun x hx => h x (List.mem_cons_of_mem _ hx))
      rw [List.mapM_cons, hc, hcs]
      rfl

/-- Localizing a column twice equals localizing it once. -/
theorem localizeCol_idem (fmt : Int → String) (c c' : String × List Val)
    (h : localizeCol fmt c = .ok c') : localizeCol fmt c' = .ok c' := by
  obtain ⟨name, cells⟩ := c
  unfold localizeCol at h ⊢
  by_cases hsel : tsSelected name cells = true
  · rw [if_pos hsel] at h
    cases hm : cells.mapM (localizeCell fmt) with
    | error e => rw [hm] at h; simp [Bind.bind, Except.bind] at h
    | ok cells' =>
        rw [hm] at h
        simp only [Bind.bind, Except.bind, pure, Except.pure, Except.ok.injEq] at h
        subst h
        rcases localizeCells_pass fmt cells cells' hm with hobj | ⟨heq, hall⟩
        · have : tsSelected name cells' = false := by
            simp [tsSelected, hobj]
          simp [this, pure, Except.pure]
        · subst heq
          rw [if_pos hsel, localizeCells_missing fmt _ hall]
          rfl
  · rw [if_neg hsel] at h
    simp only [pure, Except.pure, Except.ok.injEq] at h
    cases h
    simp [hsel, pure, Except.pure]

/-- Claim C9 (confirmed): localizing timestamps is idempotent — composing
the pass with itself equals one pass, for every table and every timezone
conversion: a selected (`"timeStamp"`-named, numeric) column either gains
a string cell, which makes its dtype `object` so the second pass skips it,
or consisted solely of missing cells and is left unchanged either time;
unselected columns are untouched. -/
theorem localizeTimestamps_idempotent (fmt : Int → String)
    (cols : List (String × List Val)) :
    (localizeTimestamps fmt cols).bind (localizeTimestamps fmt) =
      localizeTimestamps fmt cols := by
  unfold localizeTimestamps
  induction cols with
  | nil => rfl
  | cons c cs ih =>
      rw [List.mapM_cons]
      cases hc : localizeCol fmt c with
      | error e => simp [Bind.bind, Except.bind]
      | ok c' =>
          cases hcs : cs.mapM (localizeCol fmt) with
          | error e => simp [Bind.bind, Except.bind]
          | ok cs' =>
              have hcs' : cs'.mapM (localizeCol fmt) = .ok cs' := by
                rw [hcs] at ih
                simpa [Bind.bind, Except.bind] using ih
              simp only [Bind.bind, Except.bind, pure, Except.pure]
              rw [List.mapM_cons, localizeCol_idem fmt c c' hc, hcs']
              rfl

/-! ## Question-tree flattening (get_interactions.py lines 81-104, claim C5) -/

/-- `item.get("typeQuestion") == "container"` (line 84). -/
def isContainerQ (fields : List (String × Val)) : Bool :=
  match dictLookup fields "typeQuestion" with
  | some (.strV s) => s == "container"
  | _ => false

/-- `item.get("shortQuestion") or item.get("itemId", "")` (line 83). -/
def segOf (fields : List (String × Val)) : Val :=
  match dictLookup fields "shortQuestion" with
  | some v => if truthy v then v else (dictLookup fields "itemId").getD (.strV "")
  | none => (dictLookup fields "itemId").getD (.strV "")

/-- `"/".join(segs)` over already-checked string segments. -/
def joinSlash : List String → String
  | [] => ""
  | [x] => x
  | x :: rest => x ++ "/" ++ joinSlash rest

/-- `join` demands string items; a non-string raises `TypeError`. -/
def strSegs : List Val → Except String (List String)
  | [] => pure []
  | .strV s :: rest => do
      let tail ← strSegs rest
      pure (s :: tail)
  | _ :: _ => .error "TypeError: sequence item: expected str instance"

/-- `"/".join(p for p in cur_path if p)` (line 89): falsy segments are
dropped; a truthy non-string segment makes `join` raise. -/
def joinPath (path : List Val) : Except String String := do
  let segs ← strSegs (path.filter truthy)
  pure (joinSlash segs)

/-- The leaf row (lines 89-98): a `path` column first, then — skipping the
`items` attribute — one dotted `k.subk` column per entry of a dict-valued
attribute, else the attribute itself, values through `_to_scalar`. -/
def leafRec (fields : List (String × Val)) (joined : String) : Rec :=
  fields.foldl (fun r kv =>
    if kv.1 == "items" then r
    else
      match kv.2 with
      | .objV sub => sub.foldl (fun r2 skv =>
          dictSet r2 (kv.1 ++ "." ++ skv.1) (toScalar skv.2)) r
      | v => dictSet r kv.1 (toScalar v)) [("path", .strV joined)]

mutual
/-- `_walk(item, path, rows)` (lines 81-98), returning the rows it appends.
A container recurses through its `items` into each child, a leaf emits one
row; a non-dict item raises `AttributeError` on attribute access. -/
def walkV : Val → List Val → Except String (List Rec)
  | .objV fields, path =>
      if isContainerQ fields then walkItems fields (path ++ [segOf fields])
      else do
        let j ← joinPath (path ++ [segOf fields])
        pure [leafRec fields j]
  | _, _ => .error "AttributeError"
termination_by structural v => v

/-- `item.get("items", [])` followed by the child loop: the dict is
scanned for its first `items` entry (Python dict lookup, see
`walkItems_eq_lookup`), a missing key iterating nothing. -/
def walkItems : List (String × Val) → List Val → Except String (List Rec)
  | [], _ => pure []
  | (k, v) :: rest, path =>
      if k == "items" then walkIter v path else walkItems rest path
termination_by structural fields => fields

/-- `for child in v`: a list walks its members, an empty string or dict
iterates nothing, a non-empty one yields non-dict items whose attribute
access raises, anything else is not iterable. -/
def walkIter : Val → List Val → Except String (List Rec)
  | .listV children, path => walkChildren children path
  | .strV s, _ => if s.isEmpty then pure [] else .error "AttributeError"
  | .objV [], _ => pure []
  | .objV _, _ => .error "AttributeError"
  | _, _ => .error "TypeError: object is not iterable"
termination_by structural v => v

/-- The `for child in ...: _walk(child, cur_path, rows)` loop, children in
their given order. -/
def walkChildren : List Val → List Val → Except String (List Rec)
  | [], _ => pure []
  | c :: cs, path => do
      let rs ← walkV c path
      let rest ← walkChildren cs path
      pure (rs ++ rest)
termination_by structural cs => cs
end

/-- The scan in `walkItems` is exactly the Python `get`-then-iterate. -/
theorem walkItems_eq_lookup (fields : List (String × Val)) (path : List Val) :
    walkItems fields path =
      match dictLookup fields "items" with
      | none => pure []
      | some v => walkIter v path := by
  induction fields with
  | nil => simp [walkItems, dictLookup]
  | cons kv rest ih =>
      obtain ⟨k, v⟩ := kv
      by_cases hk : k = "items"
      · subst hk; simp [walkItems, dictLookup]
      · simp [walkItems, dictLookup, hk, ih]

/-- `_questions_df(root)` (lines 100-104) without the DataFrame wrapper:
the rows collected by `_walk(root, [], rows)`. -/
def questionsRows (root : Val) : Except String (List Rec) := walkV root []

mutual
/-- Number of non-container (leaf) nodes of a question tree, by the same
traversal shape as `_walk`. -/
def countLeavesV : Val → Nat
  | .objV fields => if isContainerQ fields then countItems fields else 1
  | _ => 0
termination_by structural v => v

def countItems : List (String × Val) → Nat
  | [] => 0
  | (k, v) :: rest => if k == "items" then countIter v else countItems rest
termination_by structural fields => fields

def countIter : Val → Nat
  | .listV children => countLeavesList children
  | _ => 0
termination_by structural v => v

def countLeavesList : List Val → Nat
  | [] => 0
  | c :: cs => countLeavesV c + countLeavesList cs
termination_by structural cs => cs
end

theorem sizeOf_fields_lt_objV (fields : List (String × Val)) :
    sizeOf fields < sizeOf (Val.objV fields) := by
  simp only [Val.objV.sizeOf_spec]
  omega

theorem sizeOf_val_lt_cons_pair (k : String) (v : Val)
    (rest : List (String × Val)) : sizeOf v < sizeOf ((k, v) :: rest) := by
  simp only [List.cons.sizeOf_spec, Prod.mk.sizeOf_spec]
  omega

theorem sizeOf_rest_lt_cons_pair (k : String) (v : Val)
    (rest : List (String × Val)) : sizeOf rest < sizeOf ((k, v) :: rest) := by
  simp only [List.cons.sizeOf_spec]
  omega

theorem sizeOf_children_lt_listV (children : List Val) :
    sizeOf children < sizeOf (Val.listV children) := by
  simp only [Val.listV.sizeOf_spec]
  omega

theorem sizeOf_head_lt_cons (c : Val) (cs : List Val) :
    sizeOf c < sizeOf (c :: cs) := by
  simp only [List.cons.sizeOf_spec]
  omega

theorem sizeOf_tail_lt_cons (c : Val) (cs : List Val) :
    sizeOf cs < sizeOf (c :: cs) := by
  simp only [List.cons.sizeOf_spec]
  omega

/-- Simultaneous size-bounded statement of the container-skip law for the
four mutually recursive traversal functions. -/
theorem walk_count_aux : ∀ n : Nat,
    (∀ v : Val, sizeOf v ≤ n → ∀ path rows, walkV v path = .ok rows →
      rows.length = countLeavesV v) ∧
    (∀ fields : List (String × Val), sizeOf fields ≤ n → ∀ path rows,
      walkItems fields path = .ok rows → rows.length = countItems fields) ∧
    (∀ v : Val, sizeOf v ≤ n → ∀ path rows, walkIter v path = .ok rows →
      rows.length = countIter v) ∧
    (∀ cs : List Val, sizeOf cs ≤ n → ∀ path rows, walkChildren cs path = .ok rows →
      rows.length = countLeavesList cs) := by
  intro n
  induction n using Nat.strong_induction_on with
  | _ n ih =>
    refine ⟨?_, ?_, ?_, ?_⟩
    · intro v hsz path rows hok
      cases v with
      | objV fields =>
          rw [walkV] at hok
          by_cases hc : isContainerQ fields = true
          · rw [if_pos hc] at hok
            have hlt : sizeOf fields < n :=
              Nat.lt_of_lt_of_le (sizeOf_fields_lt_objV fields) hsz
            have := (ih (sizeOf fields) hlt).2.1 fields le_rfl _ rows hok
            simp [countLeavesV, hc, this]
          · rw [if_neg hc] at hok
            cases hj : joinPath (path ++ [segOf fields]) with
            | error e => rw [hj] at hok; simp [Bind.bind, Except.bind] at hok
            | ok j =>
                rw [hj] at hok
                simp only [Bind.bind, Except.bind, pure, Except.pure,
                  Except.ok.injEq] at hok
                subst hok
                simp [countLeavesV, hc]
      | nullV => simp [walkV] at hok
      | nanV => simp [walkV] at hok
      | boolV b => simp [walkV] at hok
      | intV m => simp [walkV] at hok
      | floatV m => simp [walkV] at hok
      | strV str => simp [walkV] at hok
      | tsV a b c d e f => simp [walkV] at hok
      | listV l => simp [walkV] at hok
    · intro fields hsz path rows hok
      cases fields with
      | nil =>
          rw [walkItems] at hok
          simp only [pure, Except.pure, Except.ok.injEq] at hok
          subst hok
          rfl
      | cons kv rest =>
          obtain ⟨k, v⟩ := kv
          rw [walkItems] at hok
          by_cases hk : (k == "items") = true
          · rw [if_pos hk] at hok
            have hlt : sizeOf v < n :=
              Nat.lt_of_lt_of_le (sizeOf_val_lt_cons_pair k v rest) hsz
            have := (ih (sizeOf v) hlt).2.2.1 v le_rfl _ rows hok
            simp [countItems, hk, this]
          · rw [if_neg hk] at hok
            have hlt : sizeOf rest < n :=
              Nat.lt_of_lt_of_le (sizeOf_rest_lt_cons_pair k v rest) hsz
            have := (ih (sizeOf rest) hlt).2.1 rest le_rfl _ rows hok
            simp [countItems, hk, this]
    · intro v hsz path rows hok
      cases v with
      | listV children =>
          rw [walkIter] at hok
          have hlt : sizeOf children < n :=
            Nat.lt_of_lt_of_le (sizeOf_children_lt_listV children) hsz
          have := (ih (sizeOf children) hlt).2.2.2 children le_rfl _ rows hok
          simp [countIter, this]
      | strV str =>
          rw [walkIter] at hok
          by_cases he : str.isEmpty = true
          · rw [if_pos he] at hok
            simp only [pure, Except.pure, Except.ok.injEq] at hok
            subst hok
            rfl
          · rw [if_neg he] at hok
            simp at hok
      | objV fields =>
          cases fields with
          | nil =>
              rw [walkIter] at hok
              simp only [pure, Except.pure, Except.ok.injEq] at hok
              subst hok
              rfl
          | cons kv rest => simp [walkIter] at hok
      | nullV => simp [walkIter] at hok
      | nanV => simp [walkIter] at hok
      | boolV b => simp [walkIter] at hok
      | intV m => simp [walkIter] at hok
      | floatV m => simp [walkIter] at hok
      | tsV a b c d e f => simp [walkIter] at hok
    · intro cs hsz path rows hok
      cases cs with
      | nil =>
          rw [walkChildren] at hok
          simp only [pure, Except.pure, Except.ok.injEq] at hok
          subst hok
          rfl
      | cons c cs =>
          rw [walkChildren] at hok
          cases hr : walkV c path with
          | error e => rw [hr] at hok; simp [Bind.bind, Except.bind] at hok
          | ok rs =>
              rw [hr] at hok
              cases hrest : walkChildren cs path with
              | error e => rw [hrest] at hok; simp [Bind.bind, Except.bind] at hok
              | ok rest =>
                  rw [hrest] at hok
                  simp only [Bind.bind, Except.bind, pure, Except.pure,
                    Except.ok.injEq] at hok
                  subst hok
                  have h1 : sizeOf c < n :=
                    Nat.lt_of_lt_of_le (sizeOf_head_lt_cons c cs) hsz
                  have h2 : sizeOf cs < n :=
                    Nat.lt_of_lt_of_le (sizeOf_tail_lt_cons c cs) hsz
                  have e1 := (ih (sizeOf c) h1).1 c le_rfl _ rs hr
                  have e2 := (ih (sizeOf cs) h2).2.2.2 cs le_rfl _ rest hrest
                  simp [countLeavesList, e1, e2]

/-- Claim C5 (confirmed): flattening a question tree yields exactly one row
per non-container (leaf) node and no row for any container node: whenever
`_walk` succeeds, the number of rows it appends equals the number of leaf
nodes of the tree — in particular for `_questions_df`'s call on a root.
(Rows are emitted in depth-first child order by construction of
`walkChildren`.) -/
theorem flattenTree_row_count (item : Val) (path : List Val) (rows : List Rec)
    (hok : walkV item path = .ok rows) :
    rows.length = countLeavesV item ∧
    (∀ rows0, questionsRows item = .ok rows0 → rows0.length = countLeavesV item) := by
  constructor
  · exact (walk_count_aux (sizeOf item)).1 item le_rfl path rows hok
  · intro rows0 h0
    exact (walk_count_aux (sizeOf item)).1 item le_rfl [] rows0 h0

/-- Witness for `flattenTree_row_count`: a root container holding a nested
container with one leaf plus a direct leaf — two leaves, two rows. -/
theorem flattenTree_row_count_witness :
    ([leafRec [("shortQuestion", Val.strV "q1"),
        ("typeQuestion", Val.strV "sliderQuestion")] "root/grp/q1",
      leafRec [("itemId", Val.strV "q2")] "root/q2"].length =
      countLeavesV (Val.objV [("typeQuestion", Val.strV "container"),
        ("shortQuestion", Val.strV "root"),
        ("items", Val.listV
          [Val.objV [("typeQuestion", Val.strV "container"),
            ("shortQuestion", Val.strV "grp"),
            ("items", Val.listV [Val.objV [("shortQuestion", Val.strV "q1"),
              ("typeQuestion", Val.strV "sliderQuestion")]])],
           Val.objV [("itemId", Val.strV "q2")]])])) ∧
    (∀ rows0, questionsRows (Val.objV [("typeQuestion", Val.strV "container"),
        ("shortQuestion", Val.strV "root"),
        ("items", Val.listV
          [Val.objV [("typeQuestion", Val.strV "container"),
            ("shortQuestion", Val.strV "grp"),
            ("items", Val.listV [Val.objV [("shortQuestion", Val.strV "q1"),
              ("typeQuestion", Val.strV "sliderQuestion")]])],
           Val.objV [("itemId", Val.strV "q2")]])]) = .ok rows0 →
      rows0.length = countLeavesV (Val.objV [("typeQuestion", Val.strV "container"),
        ("shortQuestion", Val.strV "root"),
        ("items", Val.listV
          [Val.objV [("typeQuestion", Val.strV "container"),
            ("shortQuestion", Val.strV "grp"),
            ("items", Val.listV [Val.objV [("shortQuestion", Val.strV "q1"),
              ("typeQuestion", Val.strV "sliderQuestion")]])],
           Val.objV [("itemId", Val.strV "q2")]])])) :=
  flattenTree_row_count (Val.objV [("typeQuestion", Val.strV "container"),
      ("shortQuestion", Val.strV "root"),
      ("items", Val.listV
        [Val.objV [("typeQuestion", Val.strV "container"),
          ("shortQuestion", Val.strV "grp"),
          ("items", Val.listV [Val.objV [("shortQuestion", Val.strV "q1"),
            ("typeQuestion", Val.strV "sliderQuestion")]])],
         Val.objV [("itemId", Val.strV "q2")]])]) []
    [leafRec [("shortQuestion", Val.strV "q1"),
        ("typeQuestion", Val.strV "sliderQuestion")] "root/grp/q1",
     leafRec [("itemId", Val.strV "q2")] "root/q2"] (by rfl)

/-! ## Answer flattening (get_data.py lines 127-184, claims C7 and C8) -/

/-- The copy loop of `_flatten_answer` (lines 137-140): every field except
`basicQuestion` and `cAnswer` lands at `prefix + key` through
`_to_scalar`. -/
def copyEntryFields (p : String) (rec : Rec) (fields : List (String × Val)) : Rec :=
  fields.foldl (fun r kv =>
    if kv.1 == "basicQuestion" || kv.1 == "cAnswer" then r
    else dictSet r (p ++ kv.1) (toScalar kv.2)) rec

/-- Lines 142-144: `bq = ans.get("basicQuestion", {})`, then each subfield
is promoted to `prefix + "basicQuestion_" + subkey`; a present non-dict
value raises on `.items()`. -/
def expandBasicQuestion (p : String) (rec : Rec) (fields : List (String × Val)) :
    Except String Rec :=
  match dictLookup fields "basicQuestion" with
  | none => pure rec
  | some (.objV b) =>
      pure (b.foldl (fun r skv =>
        dictSet r (p ++ "basicQuestion_" ++ skv.1) (toScalar skv.2)) rec)
  | some _ => .error "AttributeError"

/-- One probe of the value-selection loop of lines 146-149:
`valkey in ans and ans[valkey]`. -/
def typedProbe (fields : List (String × Val)) (k : String) : Option Val :=
  match dictLookup fields k with
  | some v => if truthy v then some v else none
  | none => none

/-- The loop runs over `("iAnswer", "dAnswer", "sAnswer")` in that fixed
order and breaks at the first hit. -/
def firstTyped (fields : List (String × Val)) : Option Val :=
  ["iAnswer", "dAnswer", "sAnswer"].findSome? (typedProbe fields)

/-- Python `x[0]`: head of a list, first character of a string, `KeyError`
on a dict (string keys only here), `TypeError` otherwise. -/
def pyIndex0 : Val → Except String Val
  | .listV (x :: _) => pure x
  | .listV [] => .error "IndexError: list index out of range"
  | .strV s =>
      match s.data with
      | c :: _ => pure (.strV (String.singleton c))
      | [] => .error "IndexError: string index out of range"
  | .objV _ => .error "KeyError: 0"
  | _ => .error "TypeError: object is not subscriptable"

/-- `rec[prefix + "value"] = ans[valkey][0]` for the selected value key. -/
def setPicked (p : String) (rec : Rec) (fields : List (String × Val)) :
    Except String Rec :=
  match firstTyped fields with
  | some w => do
      let v ← pyIndex0 w
      pure (dictSet rec (p ++ "value") v)
  | none => pure rec

/-- `ans.get("typeAnswer") == "containerAnswer"` (line 151). -/
def isContainerAnswer (fields : List (String × Val)) : Bool :=
  match dictLookup fields "typeAnswer" with
  | some (.strV s) => s == "containerAnswer"
  | _ => false

/-- `ans.get("basicQuestion", {}).get("shortQuestion", dflt)`: requires a
dict, and a present non-dict `basicQuestion` raises on `.get`. -/
def ansShortQ (dflt : String) : Val → Except String Val
  | .objV af =>
      match dictLookup af "basicQuestion" with
      | none => pure (.strV dflt)
      | some (.objV b) => pure ((dictLookup b "shortQuestion").getD (.strV dflt))
      | some _ => .error "AttributeError"
  | _ => .error "AttributeError"

mutual
/-- `_flatten_answer(ans, rec, prefix)` (lines 131-154): copy the plain
fields, promote the sub-question metadata, extract the prioritized value
into `prefix + "value"`, and recurse into container children. -/
def flattenAnswer : Val → Rec → String → Except String Rec
  | .objV fields, rec, p => do
      let rec2 ← expandBasicQuestion p (copyEntryFields p rec fields) fields
      let rec3 ← setPicked p rec2 fields
      if isContainerAnswer fields then flattenCAnswer fields rec3 p
      else pure rec3
  | _, _, _ => .error "AttributeError"
termination_by structural v => v

/-- `ans.get("cAnswer", [])` followed by the child loop: the dict is
scanned for its first `cAnswer` entry (Python dict lookup, see
`flattenCAnswer_eq_lookup`), a missing key iterating nothing. -/
def flattenCAnswer : List (String × Val) → Rec → String → Except String Rec
  | [], rec, _ => pure rec
  | (k, v) :: rest, rec, p =>
      if k == "cAnswer" then flattenCIter v rec p
      else flattenCAnswer rest rec p
termination_by structural fields => fields

/-- `for child in v` over the `cAnswer` value: a list walks its members,
an empty string or dict iterates nothing, a non-empty one yields non-dict
children whose `.get` raises, anything else is not iterable. -/
def flattenCIter : Val → Rec → String → Except String Rec
  | .listV children, rec, p => flattenChildren children rec p
  | .strV s, rec, _ => if s.isEmpty then pure rec else .error "AttributeError"
  | .objV [], rec, _ => pure rec
  | .objV _, _, _ => .error "AttributeError"
  | _, _, _ => .error "TypeError: object is not iterable"
termination_by structural v => v

/-- Lines 152-154: every child answer is flattened into the same row under
the prefix extended by the child short label (defaulting to `container`)
plus `_`. -/
def flattenChildren : List Val → Rec → String → Except String Rec
  | [], rec, _ => pure rec
  | c :: cs, rec, p => do
      let sq ← ansShortQ "container" c
      let rec1 ← flattenAnswer c rec (p ++ pyStr sq ++ "_")
      flattenChildren cs rec1 p
termination_by structural cs => cs
end

/-- The scan in `flattenCAnswer` is exactly the Python `get`-then-iterate. -/
theorem flattenCAnswer_eq_lookup (fields : List (String × Val)) (rec : Rec)
    (p : String) :
    flattenCAnswer fields rec p =
      match dictLookup fields "cAnswer" with
      | none => pure rec
      | some v => flattenCIter v rec p := by
  induction fields with
  | nil => simp [flattenCAnswer, dictLookup]
  | cons kv rest ih =>
      obtain ⟨k, v⟩ := kv
      by_cases hk : k = "cAnswer"
      · subst hk; simp [flattenCAnswer, dictLookup]
      · simp [flattenCAnswer, dictLookup, hk, ih]

/-- The `for ans in inner.get("answers", [])` loop body (lines 179-181):
each answer must be a dict; its short label (default `Q`) plus `_` is the
prefix. -/
def flattenAnsList : List Val → Rec → Except String Rec
  | [], row => pure row
  | a :: rest, row => do
      let sq ← ansShortQ "Q" a
      let row1 ← flattenAnswer a row (pyStr sq ++ "_")
      flattenAnsList rest row1

/-- Iterating the `answers` value itself, with Python iteration rules. -/
def flattenAnswersSeq : Val → Rec → Except String Rec
  | .listV anss, row => flattenAnsList anss row
  | .strV s, row => if s.isEmpty then pure row else .error "AttributeError"
  | .objV [], row => pure row
  | .objV _, _ => .error "AttributeError"
  | _, _ => .error "TypeError: object is not iterable"

/-- The top-level copy loop of `flatten_rows` (lines 170-172): every field
but `data` through `_to_scalar`. -/
def entryTopRow (tfields : List (String × Val)) : Rec :=
  tfields.foldl (fun r kv =>
    if kv.1 == "data" then r else dictSet r kv.1 (toScalar kv.2)) []

/-- The payload copy loop (lines 174-177): every payload field but
`answers`, prefixed `data_`. -/
def dataRow (row : Rec) (ifields : List (String × Val)) : Rec :=
  ifields.foldl (fun r kv =>
    if kv.1 == "answers" then r else dictSet r ("data_" ++ kv.1) (toScalar kv.2)) row

/-- One record of `flatten_rows` (lines 167-183).  Note `inner =
entry["data"]` (line 174) is a bare indexing: a record without the
payload field raises `KeyError` and aborts the whole pass. -/
def flattenEntry : Val → Except String Rec
  | .objV tfields =>
      let row := entryTopRow tfields
      match dictLookup tfields "data" with
      | none => .error "KeyError: data"
      | some (.objV ifields) =>
          match dictLookup ifields "answers" with
          | none => pure (dataRow row ifields)
          | some a => flattenAnswersSeq a (dataRow row ifields)
      | some _ => .error "AttributeError"
  | _ => .error "AttributeError"

/-- `flatten_rows(raw_rows)` (lines 156-184): one flat row per record, in
order; any raised exception aborts the pass. -/
def flattenRows : List Val → Except String (List Rec)
  | [] => pure []
  | e :: rest => do
      let row ← flattenEntry e
      let rows ← flattenRows rest
      pure (row :: rows)

/-- Claim C8, counterexample.  The claim says a record missing the nested
payload field does not make the whole flattening pass fail.  A single
record without `data` makes `flatten_rows` raise `KeyError` (line 174
indexes `entry["data"]` directly), so the pass produces nothing. -/
theorem flattenRows_missing_payload_counterexample :
    flattenRows [.objV [("connectionId", .intV 7)]] = .error "KeyError: data" := by
  rfl

/-- Claim C8, amended: a field value of unexpected compound shape is
serialized as text by `_to_scalar` and never fails the pass — for every
value `v`, however shaped, a well-placed record flattens successfully with
`v` rendered through `_to_scalar` — but a record missing the nested `data`
payload field raises `KeyError` and fails the whole pass, whatever records
follow. -/
theorem flattenRows_anomalies (tfields : List (String × Val)) (rest : List Val)
    (hmiss : dictLookup tfields "data" = none) :
    flattenRows (.objV tfields :: rest) = .error "KeyError: data" ∧
    (∀ v : Val, flattenRows [.objV [("f", v), ("data", .objV [("g", v)])]] =
      .ok [[("f", toScalar v), ("data_g", toScalar v)]]) := by
  constructor
  · rw [flattenRows]
    have he : flattenEntry (.objV tfields) = .error "KeyError: data" := by
      rw [flattenEntry, hmiss]
    rw [he]
    rfl
  · intro v
    simp [flattenRows, flattenEntry, entryTopRow, dataRow, dictSet, dictLookup,
      flattenAnswersSeq, Bind.bind, Except.bind, pure, Except.pure]

/-- Witness for `flattenRows_anomalies` at concrete records. -/
theorem flattenRows_anomalies_witness :
    flattenRows [.objV [("connectionId", .intV 7)]] = .error "KeyError: data" ∧
    flattenRows [.objV [("f", Val.boolV true),
        ("data", .objV [("g", Val.boolV true)])]] =
      .ok [[("f", toScalar (Val.boolV true)), ("data_g", toScalar (Val.boolV true))]] :=
  ⟨(flattenRows_anomalies [("connectionId", .intV 7)] [] rfl).1,
   (flattenRows_anomalies [("connectionId", .intV 7)] [] rfl).2 (Val.boolV true)⟩

/-! ### String-prefix machinery for the flattening frame property -/

theorem str_data_append : ∀ (a b : String), (a ++ b).data = a.data ++ b.data
  | ⟨_⟩, ⟨_⟩ => rfl

theorem str_append_assoc : ∀ (a b c : String), (a ++ b) ++ c = a ++ (b ++ c)
  | ⟨a⟩, ⟨b⟩, ⟨c⟩ => congrArg String.mk (List.append_assoc a b c)

theorem str_append_cancel_left : ∀ (p a b : String), p ++ a = p ++ b → a = b
  | ⟨p⟩, ⟨a⟩, ⟨b⟩, h => by
      have hd : p ++ a = p ++ b := congrArg String.data h
      exact congrArg String.mk (List.append_cancel_left hd)

/-- `key` starts with `p` (as produced by an f-string `f"{p}{...}"`). -/
def strHasPrefix (p key : String) : Prop := ∃ t, key = p ++ t

/-- `key` extends `p` by a child label followed by an underscore: the
shape of every column a child-answer recursion can write. -/
def underExt (p key : String) : Prop := ∃ m t, key = p ++ (m ++ ("_" ++ t))

theorem strHasPrefix_of_underExt (p key : String) :
    underExt p key → strHasPrefix p key := fun ⟨m, t, h⟩ => ⟨m ++ ("_" ++ t), h⟩

theorem underExt_of_prefix_ext (p x t : String) :
    underExt p ((p ++ x ++ "_") ++ t) :=
  ⟨x, t, by rw [str_append_assoc, str_append_assoc]⟩

theorem not_underExt_value (p : String) : ¬ underExt p (p ++ "value") := by
  rintro ⟨m, t, heq⟩
  have h2 : "value" = m ++ ("_" ++ t) := str_append_cancel_left p _ _ heq
  have hmem : ('_' : Char) ∈ "value".data := by
    rw [h2, str_data_append, str_data_append]
    exact List.mem_append_right _ (List.mem_append_left _ (by decide))
  exact absurd hmem (by decide)

theorem dictLookup_set_other (od : Rec) (k : String) (v : Val) (k' : String)
    (h : k' ≠ k) : dictLookup (dictSet od k v) k' = dictLookup od k' := by
  have hne : ¬ (k = k') := fun hh => h hh.symm
  induction od with
  | nil => simp [dictSet, dictLookup, hne]
  | cons hd tl ih =>
      obtain ⟨kk, w⟩ := hd
      by_cases hkk : kk = k
      · subst hkk
        rw [dictSet, if_pos rfl, dictLookup, dictLookup, if_neg hne, if_neg hne]
      · rw [dictSet, if_neg hkk]
        by_cases hk' : kk = k'
        · rw [dictLookup, if_pos hk', dictLookup, if_pos hk']
        · rw [dictLookup, if_neg hk', dictLookup, if_neg hk', ih]

/-- A left fold of steps that each leave non-`p`-prefixed keys alone
leaves them alone. -/
theorem dictSet_fold_frame {α : Type} (p : String) (step : Rec → α → Rec)
    (hstep : ∀ (r : Rec) (a : α) (key : String), ¬ strHasPrefix p key →
      dictLookup (step r a) key = dictLookup r key) :
    ∀ (l : List α) (rec : Rec) (key : String), ¬ strHasPrefix p key →
      dictLookup (l.foldl step rec) key = dictLookup rec key := by
  intro l
  induction l with
  | nil => intro rec key _; rfl
  | cons a rest ih =>
      intro rec key h
      rw [List.foldl_cons, ih (step rec a) key h, hstep rec a key h]

theorem copyEntryFields_frame (p : String) (fields : List (String × Val))
    (rec : Rec) (key : String) (h : ¬ strHasPrefix p key) :
    dictLookup (copyEntryFields p rec fields) key = dictLookup rec key := by
  refine dictSet_fold_frame p _ ?_ fields rec key h
  intro r kv key' hk'
  by_cases hskip : (kv.1 == "basicQuestion" || kv.1 == "cAnswer") = true
  · simp [hskip]
  · simp only [hskip, Bool.false_eq_true, if_false]
    exact dictLookup_set_other r (p ++ kv.1) (toScalar kv.2) key'
      (fun hh => hk' ⟨kv.1, hh⟩)

theorem expandBasicQuestion_frame (p : String) (fields : List (String × Val))
    (rec rec2 : Rec) (h : expandBasicQuestion p rec fields = .ok rec2)
    (key : String) (hk : ¬ strHasPrefix p key) :
    dictLookup rec2 key = dictLookup rec key := by
  unfold expandBasicQuestion at h
  cases hbq : dictLookup fields "basicQuestion" with
  | none =>
      rw [hbq] at h
      simp only [pure, Except.pure, Except.ok.injEq] at h
      subst h
      rfl
  | some bv =>
      rw [hbq] at h
      cases bv with
      | objV b =>
          simp only [pure, Except.pure, Except.ok.injEq] at h
          subst h
          refine dictSet_fold_frame p _ ?_ b rec key hk
          intro r skv key' hk'
          exact dictLookup_set_other r (p ++ "basicQuestion_" ++ skv.1)
            (toScalar skv.2) key'
            (fun hh => hk' ⟨"basicQuestion_" ++ skv.1, by
              rw [hh, str_append_assoc]⟩)
      | nullV => cases h
      | nanV => cases h
      | boolV b => cases h
      | intV n => cases h
      | floatV n => cases h
      | strV s => cases h
      | tsV a b c d e f => cases h
      | listV l => cases h

theorem setPicked_frame (p : String) (fields : List (String × Val))
    (rec rec3 : Rec) (h : setPicked p rec fields = .ok rec3)
    (key : String) (hk : ¬ strHasPrefix p key) :
    dictLookup rec3 key = dictLookup rec key := by
  unfold setPicked at h
  cases hft : firstTyped fields with
  | none =>
      rw [hft] at h
      simp only [pure, Except.pure, Except.ok.injEq] at h
      subst h
      rfl
  | some w =>
      rw [hft] at h
      dsimp only at h
      cases hpi : pyIndex0 w with
      | error e => rw [hpi] at h; simp [Bind.bind, Except.bind] at h
      | ok v =>
          rw [hpi] at h
          simp only [Bind.bind, Except.bind, pure, Except.pure,
            Except.ok.injEq] at h
          subst h
          exact dictLookup_set_other rec (p ++ "value") v key
            (fun hh => hk ⟨"value", hh⟩)

theorem typedProbe_eq_filter (fields : List (String × Val)) (k : String) :
    typedProbe fields k = (dictLookup fields k).filter truthy := by
  cases h : dictLookup fields k with
  | none => simp [typedProbe, Option.filter, h]
  | some v => by_cases ht : truthy v <;> simp [typedProbe, Option.filter, h, ht]

/-- The selection loop tries `iAnswer`, then `dAnswer`, then `sAnswer`,
taking the first present truthy value. -/
theorem firstTyped_eq (fields : List (String × Val)) :
    firstTyped fields =
      ((dictLookup fields "iAnswer").filter truthy).orElse (fun _ =>
        ((dictLookup fields "dAnswer").filter truthy).orElse (fun _ =>
          (dictLookup fields "sAnswer").filter truthy)) := by
  simp only [firstTyped, List.findSome?_cons, List.findSome?_nil,
    typedProbe_eq_filter]
  cases (dictLookup fields "iAnswer").filter truthy with
  | some v => rfl
  | none =>
      cases (dictLookup fields "dAnswer").filter truthy with
      | some v => rfl
      | none =>
          cases (dictLookup fields "sAnswer").filter truthy with
          | some v => rfl
          | none => rfl

/-- Simultaneous frame property of the flattening recursion: a call with
prefix `p` only writes columns starting with `p` (`flattenAnswer`),
respectively columns extending `p` by a child label plus `_` (the
container-children loop). -/
theorem flatten_frame_aux : ∀ n : Nat,
    (∀ ans : Val, sizeOf ans ≤ n → ∀ rec p rec',
      flattenAnswer ans rec p = .ok rec' →
      ∀ key, ¬ strHasPrefix p key → dictLookup rec' key = dictLookup rec key) ∧
    (∀ fields : List (String × Val), sizeOf fields ≤ n → ∀ rec p rec',
      flattenCAnswer fields rec p = .ok rec' →
      ∀ key, ¬ underExt p key → dictLookup rec' key = dictLookup rec key) ∧
    (∀ v : Val, sizeOf v ≤ n → ∀ rec p rec',
      flattenCIter v rec p = .ok rec' →
      ∀ key, ¬ underExt p key → dictLookup rec' key = dictLookup rec key) ∧
    (∀ cs : List Val, sizeOf cs ≤ n → ∀ rec p rec',
      flattenChildren cs rec p = .ok rec' →
      ∀ key, ¬ underExt p key → dictLookup rec' key = dictLookup rec key) := by
  intro n
  induction n using Nat.strong_induction_on with
  | _ n ih =>
    refine ⟨?_, ?_, ?_, ?_⟩
    · intro ans hsz rec p rec' hok key hk
      cases ans with
      | objV fields =>
          rw [flattenAnswer] at hok
          cases hbq : expandBasicQuestion p (copyEntryFields p rec fields) fields with
          | error e => rw [hbq] at hok; simp [Bind.bind, Except.bind] at hok
          | ok rec2 =>
              rw [hbq] at hok
              simp only [Bind.bind, Except.bind] at hok
              cases hsp : setPicked p rec2 fields with
              | error e => rw [hsp] at hok; simp at hok
              | ok rec3 =>
                  rw [hsp] at hok
                  dsimp only at hok
                  have h23 := setPicked_frame p fields rec2 rec3 hsp key hk
                  have h12 := expandBasicQuestion_frame p fields
                    (copyEntryFields p rec fields) rec2 hbq key hk
                  have h01 := copyEntryFields_frame p fields rec key hk
                  by_cases hca : isContainerAnswer fields = true
                  · rw [if_pos hca] at hok
                    have hlt : sizeOf fields < n :=
                      Nat.lt_of_lt_of_le (sizeOf_fields_lt_objV fields) hsz
                    have h34 := (ih (sizeOf fields) hlt).2.1 fields le_rfl
                      rec3 p rec' hok key
                      (fun hu => hk (strHasPrefix_of_underExt p key hu))
                    rw [h34, h23, h12, h01]
                  · rw [if_neg hca] at hok
                    simp only [pure, Except.pure, Except.ok.injEq] at hok
                    subst hok
                    rw [h23, h12, h01]
      | nullV => simp [flattenAnswer] at hok
      | nanV => simp [flattenAnswer] at hok
      | boolV b => simp [flattenAnswer] at hok
      | intV m => simp [flattenAnswer] at hok
      | floatV m => simp [flattenAnswer] at hok
      | strV str => simp [flattenAnswer] at hok
      | tsV a b c d e f => simp [flattenAnswer] at hok
      | listV l => simp [flattenAnswer] at hok
    · intro fields hsz rec p rec' hok key hk
      cases fields with
      | nil =>
          rw [flattenCAnswer] at hok
          simp only [pure, Except.pure, Except.ok.injEq] at hok
          subst hok
          rfl
      | cons kv rest =>
          obtain ⟨k, v⟩ := kv
          rw [flattenCAnswer] at hok
          by_cases hkk : (k == "cAnswer") = true
          · rw [if_pos hkk] at hok
            have hlt : sizeOf v < n :=
              Nat.lt_of_lt_of_le (sizeOf_val_lt_cons_pair k v rest) hsz
            exact (ih (sizeOf v) hlt).2.2.1 v le_rfl rec p rec' hok key hk
          · rw [if_neg hkk] at hok
            have hlt : sizeOf rest < n :=
              Nat.lt_of_lt_of_le (sizeOf_rest_lt_cons_pair k v rest) hsz
            exact (ih (sizeOf rest) hlt).2.1 rest le_rfl rec p rec' hok key hk
    · intro v hsz rec p rec' hok key hk
      cases v with
      | listV children =>
          rw [flattenCIter] at hok
          have hlt : sizeOf children < n :=
            Nat.lt_of_lt_of_le (sizeOf_children_lt_listV children) hsz
          exact (ih (sizeOf children) hlt).2.2.2 children le_rfl rec p rec' hok key hk
      | strV str =>
          rw [flattenCIter] at hok
          by_cases he : str.isEmpty = true
          · rw [if_pos he] at hok
            simp only [pure, Except.pure, Except.ok.injEq] at hok
            subst hok
            rfl
          · rw [if_neg he] at hok
            simp at hok
      | objV fields =>
          cases fields with
          | nil =>
              rw [flattenCIter] at hok
              simp only [pure, Except.pure, Except.ok.injEq] at hok
              subst hok
              rfl
          | cons kv rest => simp [flattenCIter] at hok
      | nullV => simp [flattenCIter] at hok
      | nanV => simp [flattenCIter] at hok
      | boolV b => simp [flattenCIter] at hok
      | intV m => simp [flattenCIter] at hok
      | floatV m => simp [flattenCIter] at hok
      | tsV a b c d e f => simp [flattenCIter] at hok
    · intro cs hsz rec p rec' hok key hk
      cases cs with
      | nil =>
          rw [flattenChildren] at hok
          simp only [pure, Except.pure, Except.ok.injEq] at hok
          subst hok
          rfl
      | cons c cs =>
          rw [flattenChildren] at hok
          cases hsq : ansShortQ "container" c with
          | error e => rw [hsq] at hok; simp [Bind.bind, Except.bind] at hok
          | ok sq =>
              rw [hsq] at hok
              simp only [Bind.bind, Except.bind] at hok
              cases hfa : flattenAnswer c rec (p ++ pyStr sq ++ "_") with
              | error e => rw [hfa] at hok; simp at hok
              | ok rec1 =>
                  rw [hfa] at hok
                  dsimp only at hok
                  have h1lt : sizeOf c < n :=
                    Nat.lt_of_lt_of_le (sizeOf_head_lt_cons c cs) hsz
                  have h2lt : sizeOf cs < n :=
                    Nat.lt_of_lt_of_le (sizeOf_tail_lt_cons c cs) hsz
                  have hpref : ¬ strHasPrefix (p ++ pyStr sq ++ "_") key := by
                    rintro ⟨t, rfl⟩
                    exact hk (underExt_of_prefix_ext p (pyStr sq) t)
                  have h1 := (ih (sizeOf c) h1lt).1 c le_rfl rec
                    (p ++ pyStr sq ++ "_") rec1 hfa key hpref
                  have h2 := (ih (sizeOf cs) h2lt).2.2.2 cs le_rfl rec1 p rec' hok key hk
                  rw [h2, h1]

/-- Claim C7 (confirmed): whenever `_flatten_answer` succeeds on an answer
whose first non-empty typed value field — checked in the fixed priority
order `iAnswer` before `dAnswer` before `sAnswer` — is `w`, the flattened
row's `prefix + "value"` column holds `w[0]`: the pick is written after
the field copies and survives the container-children recursion, whose
writes all extend the prefix by a child label plus `_` and therefore never
collide with `prefix + "value"`.  The same fixed order is applied to every
answer, so flattening is deterministic. -/
theorem flattenAnswer_value_priority (fields : List (String × Val)) (rec : Rec)
    (p : String) (rec' : Rec) (w : Val)
    (hok : flattenAnswer (.objV fields) rec p = .ok rec')
    (hw : ((dictLookup fields "iAnswer").filter truthy).orElse (fun _ =>
        ((dictLookup fields "dAnswer").filter truthy).orElse (fun _ =>
          (dictLookup fields "sAnswer").filter truthy)) = some w) :
    ∃ v, pyIndex0 w = .ok v ∧ dictLookup rec' (p ++ "value") = some v := by
  have hft : firstTyped fields = some w := by rw [firstTyped_eq]; exact hw
  rw [flattenAnswer] at hok
  cases hbq : expandBasicQuestion p (copyEntryFields p rec fields) fields with
  | error e => rw [hbq] at hok; simp [Bind.bind, Except.bind] at hok
  | ok rec2 =>
      rw [hbq] at hok
      simp only [Bind.bind, Except.bind] at hok
      cases hsp : setPicked p rec2 fields with
      | error e => rw [hsp] at hok; simp at hok
      | ok rec3 =>
          rw [hsp] at hok
          dsimp only at hok
          obtain ⟨v, hpi, hrec3⟩ : ∃ v, pyIndex0 w = .ok v ∧
              rec3 = dictSet rec2 (p ++ "value") v := by
            unfold setPicked at hsp
            rw [hft] at hsp
            dsimp only at hsp
            cases hpi : pyIndex0 w with
            | error e => rw [hpi] at hsp; simp [Bind.bind, Except.bind] at hsp
            | ok v =>
                rw [hpi] at hsp
                simp only [Bind.bind, Except.bind, pure, Except.pure,
                  Except.ok.injEq] at hsp
                exact ⟨v, rfl, hsp.symm⟩
          refine ⟨v, hpi, ?_⟩
          have hself : dictLookup rec3 (p ++ "value") = some v := by
            rw [hrec3]
            exact dictLookup_set_self rec2 (p ++ "value") v
          by_cases hca : isContainerAnswer fields = true
          · rw [if_pos hca] at hok
            have hfr := (flatten_frame_aux (sizeOf fields)).2.1 fields le_rfl
              rec3 p rec' hok (p ++ "value") (not_underExt_value p)
            rw [hfr, hself]
          · rw [if_neg hca] at hok
            simp only [pure, Except.pure, Except.ok.injEq] at hok
            subst hok
            exact hself

/-- Witness for `flattenAnswer_value_priority` on a basic answer whose
`iAnswer` holds the string `"7"` (its `[0]` is `"7"` itself). -/
theorem flattenAnswer_value_priority_witness :
    ∃ v, pyIndex0 (Val.strV "7") = .ok v ∧
      dictLookup [("Q1_typeAnswer", Val.strV "basicAnswer"),
        ("Q1_iAnswer", Val.strV "7"), ("Q1_value", Val.strV "7")]
        ("Q1_" ++ "value") = some v :=
  flattenAnswer_value_priority
    [("typeAnswer", Val.strV "basicAnswer"), ("iAnswer", Val.strV "7")]
    [] "Q1_"
    [("Q1_typeAnswer", Val.strV "basicAnswer"),
     ("Q1_iAnswer", Val.strV "7"), ("Q1_value", Val.strV "7")]
    (Val.strV "7") (by rfl) (by rfl)

end EMA
